import Mathlib

/-!
# Generic pixel colours and 48-bit RGB images (package `image`)

A shallow embedding of `Color.RGBA`, `colorModelConvert`, `SizeofKind` and
`SizeofPixel` of `image_color.go` and of `RGB48Image` of `rgb48.go`, together
with the parts of Go's standard library they call (`image`, `image/color`)
and the pixel-buffer accessor `PixSilce` they rely on.

Conventions of the embedding
* a byte (`uint8`) is a `Fin 256`; `uint16` and `uint32` values are natural
  numbers, reduced `% 2^16` and `% 2^32` wherever Go would wrap;
* Go's `int` is the 64-bit two's complement integer: an `int` is kept as an
  `Int` and the result of every `int` addition, subtraction and product of the
  code is reduced by `wrapInt`;
* `make` panics for a negative size and for a size above the runtime's limit
  `maxAlloc`; up to that limit memory is assumed to suffice;
* a run-time panic (index or slice bound out of range, `make` size out of
  range) is `none`.
-/

namespace ImageColor

/-! ## Element kinds (`reflect.Kind`) -/

/-- Go's `reflect.Kind` is an unsigned integer tag. -/
abbrev Kind := Nat

namespace reflect

abbrev Invalid : Kind := 0
abbrev Bool : Kind := 1
abbrev Int : Kind := 2
abbrev Int8 : Kind := 3
abbrev Int16 : Kind := 4
abbrev Int32 : Kind := 5
abbrev Int64 : Kind := 6
abbrev Uint : Kind := 7
abbrev Uint8 : Kind := 8
abbrev Uint16 : Kind := 9
abbrev Uint32 : Kind := 10
abbrev Uint64 : Kind := 11
abbrev Uintptr : Kind := 12
abbrev Float32 : Kind := 13
abbrev Float64 : Kind := 14
abbrev Complex64 : Kind := 15
abbrev Complex128 : Kind := 16

end reflect

/-- `SizeofKind` of `image_color.go`: the byte width of one element. -/
def SizeofKind (dataType : Kind) : Int :=
  if dataType = reflect.Int8 then 1
  else if dataType = reflect.Int16 then 2
  else if dataType = reflect.Int32 then 4
  else if dataType = reflect.Int64 then 8
  else if dataType = reflect.Uint8 then 1
  else if dataType = reflect.Uint16 then 2
  else if dataType = reflect.Uint32 then 4
  else if dataType = reflect.Uint64 then 8
  else if dataType = reflect.Float32 then 4
  else if dataType = reflect.Float64 then 8
  else if dataType = reflect.Complex64 then 8
  else if dataType = reflect.Complex128 then 16
  else 0

/-- `SizeofPixel` of `image_color.go`, as the exact product (the `int` Go
returns is `wrapInt` of it). -/
def SizeofPixel (channels : Int) (dataType : Kind) : Int :=
  channels * SizeofKind dataType

/-! ## Bytes and pixel buffers -/

/-- A `uint8`. -/
abbrev Byte := Fin 256

/-- Go's conversion `uint8(n)` of an unsigned integer: the low eight bits. -/
def toByte (n : Nat) : Byte := ⟨n % 256, Nat.mod_lt n (by decide)⟩

/-- The type `PixSilce` (a `[]byte`). -/
abbrev PixSilce := List Byte

/-- The value of a Go `int` (64 bits, two's complement) holding the integer
`n` reduced modulo `2^64`. -/
def wrapInt (n : Int) : Int :=
  (n + 9223372036854775808) % 18446744073709551616 - 9223372036854775808

/-- Go's `a + b` on `int`. -/
def addInt (a b : Int) : Int := wrapInt (a + b)

/-- Go's `a - b` on `int`. -/
def subInt (a b : Int) : Int := wrapInt (a - b)

/-- Go's `a * b` on `int`. -/
def mulInt (a b : Int) : Int := wrapInt (a * b)

/-- The runtime's `maxAlloc`, the largest size in bytes `make` accepts (`2^48`
on 64-bit Linux). -/
def maxAlloc : Int := 281474976710656

/-- Go's `make(PixSilce, n)`: `n` zero bytes; the panic `len out of range` for
a negative `n` and for an `n` above `maxAlloc`. -/
def makePix (n : Int) : Option PixSilce :=
  if n < 0 ∨ maxAlloc < n then none else some (List.replicate n.toNat 0)

/-- Go's builtin `copy(dst, src)`: the first `min (len dst) (len src)` bytes of
`dst` are overwritten with those of `src`; the result is the new `dst`. -/
def copyPix (dst src : PixSilce) : PixSilce :=
  src.take dst.length ++ dst.drop src.length

/-- Go's indexed store `p[i] = b`, a panic when `i` is out of range. -/
def setByte (p : PixSilce) (i : Nat) (b : Byte) : Option PixSilce :=
  if i < p.length then some (p.set i b) else none

/-! ## The standard library's colour types (`image/color`) -/

/-- The result of an `RGBA()` method: four `uint32` values. -/
abbrev Quad := Nat × Nat × Nat × Nat

/-- `y |= y << 8` on a `uint32` holding an 8-bit sample. -/
def widen8 (y : Nat) : Nat := y ||| (y <<< 8)

/-- `color.Gray{Y}.RGBA()`. -/
def GrayRGBA (y : Byte) : Quad :=
  (widen8 y.val, widen8 y.val, widen8 y.val, 0xffff)

/-- `color.Gray16{Y}.RGBA()`. -/
def Gray16RGBA (y : Nat) : Quad := (y, y, y, 0xffff)

/-- `color.RGBA{R, G, B, A}.RGBA()`: the type holds alpha-premultiplied
samples, so each one is only widened to 16 bits. -/
def RGBA8RGBA (r g b a : Byte) : Quad :=
  (widen8 r.val, widen8 g.val, widen8 b.val, widen8 a.val)

/-- `color.RGBA64{R, G, B, A}.RGBA()`. -/
def RGBA64RGBA (r g b a : Nat) : Quad := (r, g, b, a)

/-! ## The `float64` intermediate of the typed accessor

`PixSilce.Value` returns, and `PixSilce.SetValue` takes, a Go `float64`. A
float is kept here as an exact value: sign, integer significand and binary
exponent, or an infinity, or a NaN. -/

/-- A floating-point value: `fin neg m e` stands for `(-1)^neg * m * 2^e`. -/
inductive Float64 where
  | fin (neg : Bool) (m : Nat) (e : Int)
  | inf (neg : Bool)
  | nan
deriving DecidableEq, Repr

namespace Float64

/-- Exponent of the least significant bit of the smallest IEEE 754 numbers of
a format with `E` exponent bits and `M` fraction bits. -/
def emin (E M : Nat) : Int := 2 - (2 : Int) ^ (E - 1) - M

/-- The quotient `m / 2^s` rounded to nearest, ties to even. -/
def roundHalfEven (m s : Nat) : Nat :=
  let q := m / 2 ^ s
  let r := m % 2 ^ s
  if 2 * r > 2 ^ s ∨ (2 * r = 2 ^ s ∧ q % 2 = 1) then q + 1 else q

/-- The IEEE 754 bit pattern (`E` exponent bits, `M` fraction bits) of the
value nearest to `v`; overflow gives an infinity. -/
def toBits (E M : Nat) : Float64 → Nat
  | nan => (2 ^ E - 1) * 2 ^ M + 2 ^ (M - 1)
  | inf neg => (if neg then 2 ^ (E + M) else 0) + (2 ^ E - 1) * 2 ^ M
  | fin neg m e =>
    let sign := if neg then 2 ^ (E + M) else 0
    if m = 0 then sign
    else
      let q : Int := max (e + (Nat.log2 m : Int) - M) (emin E M)
      let s : Int := q - e
      let mant := if s ≤ 0 then m * 2 ^ (-s).toNat else roundHalfEven m s.toNat
      let mag := (q - emin E M).toNat * 2 ^ M + mant
      sign + min mag ((2 ^ E - 1) * 2 ^ M)

/-- The value of an IEEE 754 bit pattern (`E` exponent bits, `M` fraction
bits). -/
def ofBits (E M : Nat) (b : Nat) : Float64 :=
  let neg := decide (b / 2 ^ (E + M) % 2 = 1)
  let ex := b / 2 ^ M % 2 ^ E
  let fr := b % 2 ^ M
  if ex = 2 ^ E - 1 then (if fr = 0 then inf neg else nan)
  else if ex = 0 then fin neg fr (emin E M)
  else fin neg (2 ^ M + fr) (emin E M + ex - 1)

/-- Go's conversion `float64(n)` of an integer: exact below `2^53`, rounded to
the nearest `float64` above. -/
def ofInt (n : Int) : Float64 :=
  if n.natAbs < 2 ^ 53 then fin (decide (n < 0)) n.natAbs 0
  else ofBits 11 52 (toBits 11 52 (fin (decide (n < 0)) n.natAbs 0))

/-- The integer part of a float (truncation toward zero); `0` for an infinity
or a NaN. -/
def trunc : Float64 → Int
  | fin neg m e =>
    let a : Nat := if 0 ≤ e then m * 2 ^ e.toNat else m / 2 ^ (-e).toNat
    if neg then -(a : Int) else a
  | inf _ => 0
  | nan => 0

/-- Go's conversion of a `float64` to an integer type of `w` bits, as the `w`
stored bits: the fraction is discarded. Go leaves the result for a value
outside the range of the target type to the implementation; the low `w` bits
of the integer part are kept here. -/
def toBitsInt (w : Nat) (v : Float64) : Nat := (trunc v % (2 : Int) ^ w).toNat

end Float64

/-! ## The pixel-buffer accessor `PixSilce` -/

/-- The big-endian value of a byte string. -/
def beDecode (bs : List Byte) : Nat := bs.foldl (fun acc b => acc * 256 + b.val) 0

/-- The `size` low bytes of `n`, most significant first. -/
def beEncode (size n : Nat) : List Byte :=
  (List.range size).map (fun j => toByte (n / 256 ^ (size - 1 - j)))

/-- Modelled from the spec: `PixSilce.Uint16s` (the accessor's source file is
not part of the sources) reinterprets the buffer as consecutive big-endian
16-bit unsigned values, `len / 2` of them. -/
def PixSilce.Uint16s : PixSilce → List Nat
  | hi :: lo :: rest => (hi.val * 256 + lo.val) :: PixSilce.Uint16s rest
  | _ => []

/-- The bytes of element `i` of a buffer read as elements of `size` bytes; an
index outside the `len / size` elements is a panic. -/
def PixSilce.elem (d : PixSilce) (i size : Nat) : Option (List Byte) :=
  if 0 < size ∧ (i + 1) * size ≤ d.length then some ((d.drop (i * size)).take size)
  else none

/-- The buffer with the bytes of element `i` replaced by `bs`; an index
outside the `len / size` elements, `size = bs.length`, is a panic. -/
def PixSilce.setElem (d : PixSilce) (i : Nat) (bs : List Byte) : Option PixSilce :=
  if 0 < bs.length ∧ (i + 1) * bs.length ≤ d.length then
    some (d.take (i * bs.length) ++ bs ++ d.drop ((i + 1) * bs.length))
  else none

/-- The value of a two's complement integer of `w` bits. -/
def signed (w raw : Nat) : Int :=
  if raw < 2 ^ (w - 1) then raw else (raw : Int) - 2 ^ w

/-- Modelled from the spec: `PixSilce.Value(i, dataType)` (the accessor's
source file is not part of the sources) decodes element `i` according to the
byte width and numeric interpretation of `dataType`: integer kinds are sign- or
zero-extended and widened to `float64`, `float32` and `float64` are decoded as
such, and a complex kind gives its real part. Elements are stored big-endian,
as the spec says of 16-bit elements. An index out of range, or a kind outside
the width table, is a contract violation (`none`). -/
def PixSilce.Value (d : PixSilce) (i : Nat) (dataType : Kind) : Option Float64 :=
  if dataType = reflect.Int8 ∨ dataType = reflect.Int16 ∨ dataType = reflect.Int32
      ∨ dataType = reflect.Int64 then
    (d.elem i (SizeofKind dataType).toNat).map
      (fun bs => Float64.ofInt (signed (8 * bs.length) (beDecode bs)))
  else if dataType = reflect.Uint8 ∨ dataType = reflect.Uint16 ∨ dataType = reflect.Uint32
      ∨ dataType = reflect.Uint64 then
    (d.elem i (SizeofKind dataType).toNat).map (fun bs => Float64.ofInt (beDecode bs))
  else if dataType = reflect.Float32 then
    (d.elem i 4).map (fun bs => Float64.ofBits 8 23 (beDecode bs))
  else if dataType = reflect.Float64 then
    (d.elem i 8).map (fun bs => Float64.ofBits 11 52 (beDecode bs))
  else if dataType = reflect.Complex64 then
    (d.elem i 8).map (fun bs => Float64.ofBits 8 23 (beDecode (bs.take 4)))
  else if dataType = reflect.Complex128 then
    (d.elem i 16).map (fun bs => Float64.ofBits 11 52 (beDecode (bs.take 8)))
  else none

/-- Modelled from the spec: the bytes `PixSilce.SetValue` stores for `v` in an
element of kind `dataType`: `v` narrowed to the representation of `dataType`
(a complex element gets the imaginary part zero); `none` for a kind outside
the width table. -/
def encodeValue (dataType : Kind) (v : Float64) : Option (List Byte) :=
  if dataType = reflect.Int8 ∨ dataType = reflect.Int16 ∨ dataType = reflect.Int32
      ∨ dataType = reflect.Int64 ∨ dataType = reflect.Uint8 ∨ dataType = reflect.Uint16
      ∨ dataType = reflect.Uint32 ∨ dataType = reflect.Uint64 then
    some (beEncode (SizeofKind dataType).toNat
      (Float64.toBitsInt (8 * (SizeofKind dataType).toNat) v))
  else if dataType = reflect.Float32 then some (beEncode 4 (Float64.toBits 8 23 v))
  else if dataType = reflect.Float64 then some (beEncode 8 (Float64.toBits 11 52 v))
  else if dataType = reflect.Complex64 then
    some (beEncode 4 (Float64.toBits 8 23 v) ++ beEncode 4 0)
  else if dataType = reflect.Complex128 then
    some (beEncode 8 (Float64.toBits 11 52 v) ++ beEncode 8 0)
  else none

/-- Modelled from the spec: `PixSilce.SetValue(i, dataType, v)` (the accessor's
source file is not part of the sources) encodes `v` into element `i`,
narrowing it to the representation of `dataType`; the result is the updated
buffer. An index out of range, or a kind outside the width table, is a
contract violation (`none`). -/
def PixSilce.SetValue (d : PixSilce) (i : Nat) (dataType : Kind) (v : Float64) :
    Option PixSilce :=
  (encodeValue dataType v).bind (fun bs => d.setElem i bs)

/-- Go's conversion `uint16(v)` of a `float64`. -/
def toUint16 (v : Float64) : Nat := Float64.toBitsInt 16 v

/-! ## `Color` and `Color.RGBA` -/

/-- The struct `Color` of `image_color.go`. -/
structure Color where
  Channels : Int
  DataType : Kind
  Pix : PixSilce
deriving DecidableEq, Repr

/-- The method `Color.RGBA` of `image_color.go`. Every buffer read is an
indexed read that panics (`none`) out of range. -/
def Color.RGBA (c : Color) : Option Quad :=
  if c.Pix.length = 0 then some (0, 0, 0, 0)
  else if c.Channels = 1 then
    if c.DataType = reflect.Uint8 then do
      let y ← c.Pix[0]?
      pure (GrayRGBA y)
    else if c.DataType = reflect.Uint16 then do
      let y ← c.Pix.Uint16s[0]?
      pure (Gray16RGBA y)
    else do
      let y ← c.Pix.Value 0 c.DataType
      pure (Gray16RGBA (toUint16 y))
  else if c.Channels = 2 then
    if c.DataType = reflect.Uint8 then do
      let r ← c.Pix[0]?
      let g ← c.Pix[1]?
      pure (RGBA8RGBA r g 0xFF 0xFF)
    else if c.DataType = reflect.Uint16 then do
      let r ← c.Pix.Uint16s[0]?
      let g ← c.Pix.Uint16s[1]?
      pure (RGBA64RGBA r g 0xFFFF 0xFFFF)
    else do
      let r ← c.Pix.Value 0 c.DataType
      let g ← c.Pix.Value 1 c.DataType
      pure (RGBA64RGBA (toUint16 r) (toUint16 g) 0xFFFF 0xFFFF)
  else if c.Channels = 3 then
    if c.DataType = reflect.Uint8 then do
      let r ← c.Pix[0]?
      let g ← c.Pix[1]?
      let b ← c.Pix[2]?
      pure (RGBA8RGBA r g b 0xFF)
    else if c.DataType = reflect.Uint16 then do
      let r ← c.Pix.Uint16s[0]?
      let g ← c.Pix.Uint16s[1]?
      let b ← c.Pix.Uint16s[2]?
      pure (RGBA64RGBA r g b 0xFFFF)
    else do
      let r ← c.Pix.Value 0 c.DataType
      let g ← c.Pix.Value 1 c.DataType
      let b ← c.Pix.Value 2 c.DataType
      pure (RGBA64RGBA (toUint16 r) (toUint16 g) (toUint16 b) 0xFFFF)
  else if c.Channels = 4 then
    if c.DataType = reflect.Uint8 then do
      let r ← c.Pix[0]?
      let g ← c.Pix[1]?
      let b ← c.Pix[2]?
      let a ← c.Pix[3]?
      pure (RGBA8RGBA r g b a)
    else if c.DataType = reflect.Uint16 then do
      let r ← c.Pix.Uint16s[0]?
      let g ← c.Pix.Uint16s[1]?
      let b ← c.Pix.Uint16s[2]?
      let a ← c.Pix.Uint16s[3]?
      pure (RGBA64RGBA r g b a)
    else do
      let r ← c.Pix.Value 0 c.DataType
      let g ← c.Pix.Value 1 c.DataType
      let b ← c.Pix.Value 2 c.DataType
      let a ← c.Pix.Value 3 c.DataType
      pure (RGBA64RGBA (toUint16 r) (toUint16 g) (toUint16 b) (toUint16 a))
  else some (0, 0, 0, 0)

/-! ## `colorModelConvert` -/

/-- A value of the interface `color.Color`: either a `Color` of this package
(the type assertion `c.(Color)` succeeds) or any other colour, which the code
only observes through the four `uint32` results of its `RGBA()` method. -/
inductive ColorValue where
  | generic (c : Color)
  | other (r g b a : Nat)
deriving DecidableEq, Repr

/-- The `Y` of `color.GrayModel.Convert(c)` for a colour with `RGBA()` results
`r, g, b` (`uint32` arithmetic); for a `color.Gray`, which the model returns
unchanged, the formula gives back its `Y`. -/
def grayModelY (r g b : Nat) : Byte :=
  toByte (((19595 * r + 38470 * g + 7471 * b + 2 ^ 15) % 2 ^ 32) >>> 24)

/-- The `Y` of `color.Gray16Model.Convert(c)` for a colour with `RGBA()`
results `r, g, b` (`uint32` arithmetic). -/
def gray16ModelY (r g b : Nat) : Nat :=
  (((19595 * r + 38470 * g + 7471 * b + 2 ^ 15) % 2 ^ 32) >>> 16) % 2 ^ 16

/-- The loop `for i := 0; i < c1.Channels && i < c2.Channels; i++` of
`colorModelConvert`: each channel present on both sides is read with
`Value` in the source kind and stored with `SetValue` in the target kind. -/
def remapChannels (c1 : Color) (dataType : Kind) (n : Nat) (pix : PixSilce) :
    Option PixSilce :=
  (List.range n).foldlM
    (fun p i => (c1.Pix.Value i c1.DataType).bind (fun v => p.SetValue i dataType v)) pix

/-- The final loop `for i := 0; i < c2.Channels && i < len(rgba); i++` of
`colorModelConvert`: `SetValue(i, dataType, float64(rgba[i]))`. -/
def storeRGBA (rgba : List Nat) (dataType : Kind) (n : Nat) (pix : PixSilce) :
    Option PixSilce :=
  (List.range n).foldlM
    (fun p i => p.SetValue i dataType (Float64.ofInt ((rgba.getD i 0 : Nat) : Int))) pix

/-- Consecutive stores `pix[0] = b0; pix[1] = b1; ...`. -/
def setBytes (pix : PixSilce) (bs : List Byte) : Option PixSilce :=
  (List.range bs.length).foldlM (fun p i => setByte p i (bs.getD i 0)) pix

/-- The function `colorModelConvert` of `image_color.go`. -/
def colorModelConvert (channels : Int) (dataType : Kind) (c : ColorValue) : Option Color :=
  (makePix (mulInt channels (SizeofKind dataType))).bind fun pix =>
  match c with
  | .generic c1 =>
    if c1.Channels = channels ∧ c1.DataType = dataType then
      some ⟨channels, dataType, copyPix pix c1.Pix⟩
    else if c1.DataType = dataType then
      some ⟨channels, dataType, copyPix pix c1.Pix⟩
    else
      (remapChannels c1 dataType (min c1.Channels channels).toNat pix).map
        (fun p => ⟨channels, dataType, p⟩)
  | .other r g b a =>
    if channels = 1 ∧ dataType = reflect.Uint8 then
      (setBytes pix [grayModelY r g b]).map (fun p => ⟨channels, dataType, p⟩)
    else if channels = 1 ∧ dataType = reflect.Uint16 then
      (setBytes pix [toByte (gray16ModelY r g b >>> 8), toByte (gray16ModelY r g b)]).map
        (fun p => ⟨channels, dataType, p⟩)
    else if channels = 3 ∧ dataType = reflect.Uint8 then
      (setBytes pix [toByte (r >>> 8), toByte (g >>> 8), toByte (b >>> 8)]).map
        (fun p => ⟨channels, dataType, p⟩)
    else if channels = 3 ∧ dataType = reflect.Uint16 then
      (setBytes pix [toByte (r >>> 8), toByte r, toByte (g >>> 8), toByte g,
        toByte (b >>> 8), toByte b]).map (fun p => ⟨channels, dataType, p⟩)
    else if channels = 4 ∧ dataType = reflect.Uint8 then
      (setBytes pix [toByte (r >>> 8), toByte (g >>> 8), toByte (b >>> 8),
        toByte (a >>> 8)]).map (fun p => ⟨channels, dataType, p⟩)
    else if channels = 4 ∧ dataType = reflect.Uint16 then
      (setBytes pix [toByte (r >>> 8), toByte r, toByte (g >>> 8), toByte g,
        toByte (b >>> 8), toByte b, toByte (a >>> 8), toByte a]).map
        (fun p => ⟨channels, dataType, p⟩)
    else
      (storeRGBA [r, g, b, a] dataType (min channels 4).toNat pix).map
        (fun p => ⟨channels, dataType, p⟩)

/-! ## Rectangles (`image.Point`, `image.Rectangle` of the standard library) -/

/-- The struct `image.Point`. -/
structure Point where
  X : Int
  Y : Int
deriving DecidableEq, Repr

/-- The struct `image.Rectangle`. -/
structure Rectangle where
  Min : Point
  Max : Point
deriving DecidableEq, Repr

/-- The zero rectangle `image.ZR`. -/
def ZR : Rectangle := ⟨⟨0, 0⟩, ⟨0, 0⟩⟩

/-- `Point.In`: whether the point is in the rectangle. -/
def Point.In (p : Point) (r : Rectangle) : Bool :=
  decide (r.Min.X ≤ p.X ∧ p.X < r.Max.X ∧ r.Min.Y ≤ p.Y ∧ p.Y < r.Max.Y)

/-- `Rectangle.Dx`: the width. -/
def Rectangle.Dx (r : Rectangle) : Int := subInt r.Max.X r.Min.X

/-- `Rectangle.Dy`: the height. -/
def Rectangle.Dy (r : Rectangle) : Int := subInt r.Max.Y r.Min.Y

/-- `Rectangle.Empty`: whether the rectangle contains no point. -/
def Rectangle.Empty (r : Rectangle) : Bool :=
  decide (r.Min.X ≥ r.Max.X ∨ r.Min.Y ≥ r.Max.Y)

/-- The four clipping assignments at the head of `Rectangle.Intersect`: `r`
with each bound replaced by that of `s` where `s` is tighter. -/
def Rectangle.clip (r s : Rectangle) : Rectangle :=
  ⟨⟨if r.Min.X < s.Min.X then s.Min.X else r.Min.X,
    if r.Min.Y < s.Min.Y then s.Min.Y else r.Min.Y⟩,
   ⟨if r.Max.X > s.Max.X then s.Max.X else r.Max.X,
    if r.Max.Y > s.Max.Y then s.Max.Y else r.Max.Y⟩⟩

/-- `Rectangle.Intersect`: the largest rectangle contained by both, the zero
rectangle when they do not overlap. -/
def Rectangle.Intersect (r s : Rectangle) : Rectangle :=
  if (r.clip s).Empty then ZR else r.clip s

/-! ## `RGB48Image` (`rgb48.go`) -/

/-- The struct `RGB48Image` of `rgb48.go`. -/
structure RGB48Image where
  Pix : List Byte
  Stride : Int
  Rect : Rectangle
deriving DecidableEq, Repr

/-- Go's indexed read `pix[i]` with an `int` index, a panic out of range. -/
def readAt (pix : List Byte) (i : Int) : Option Byte :=
  if 0 ≤ i then pix[i.toNat]? else none

/-- Go's indexed store `pix[i] = b` with an `int` index, a panic out of
range. -/
def writeAt (pix : List Byte) (i : Int) (b : Byte) : Option (List Byte) :=
  if 0 ≤ i ∧ i.toNat < pix.length then some (pix.set i.toNat b) else none

/-- The expression `uint16(hi)<<8 | uint16(lo)`. -/
def join16 (hi lo : Byte) : Nat := (hi.val <<< 8) ||| lo.val

/-- The method `RGB48Image.PixOffset` of `rgb48.go`. -/
def RGB48Image.PixOffset (p : RGB48Image) (x y : Int) : Int :=
  addInt (mulInt (subInt y p.Rect.Min.Y) p.Stride) (mulInt (subInt x p.Rect.Min.X) 3)

/-- The method `RGB48Image.At` of `rgb48.go`; the result is the `color.RGBA64`
struct `(R, G, B, A)`. -/
def RGB48Image.At (p : RGB48Image) (x y : Int) : Option (Nat × Nat × Nat × Nat) :=
  if !(Point.In ⟨x, y⟩ p.Rect) then some (0, 0, 0, 0)
  else do
    let i := p.PixOffset x y
    let r0 ← readAt p.Pix (addInt i 0)
    let r1 ← readAt p.Pix (addInt i 1)
    let g0 ← readAt p.Pix (addInt i 2)
    let g1 ← readAt p.Pix (addInt i 3)
    let b0 ← readAt p.Pix (addInt i 4)
    let b1 ← readAt p.Pix (addInt i 5)
    pure (join16 r0 r1, join16 g0 g1, join16 b0 b1, 0xffff)

/-- The method `RGB48Image.RGB48At` of `rgb48.go`. -/
def RGB48Image.RGB48At (p : RGB48Image) (x y : Int) : Option (Nat × Nat × Nat) :=
  if !(Point.In ⟨x, y⟩ p.Rect) then some (0, 0, 0)
  else do
    let i := p.PixOffset x y
    let r0 ← readAt p.Pix (addInt i 0)
    let r1 ← readAt p.Pix (addInt i 1)
    let g0 ← readAt p.Pix (addInt i 2)
    let g1 ← readAt p.Pix (addInt i 3)
    let b0 ← readAt p.Pix (addInt i 4)
    let b1 ← readAt p.Pix (addInt i 5)
    pure (join16 r0 r1, join16 g0 g1, join16 b0 b1)

/-- The six stores of `Set` and `SetRGB48`: the channels `r, g, b` (`uint16`)
as byte pairs `uint8(v >> 8)`, `uint8(v)` from offset `i` on. -/
def store48 (pix : List Byte) (i : Int) (r g b : Nat) : Option (List Byte) := do
  let p0 ← writeAt pix (addInt i 0) (toByte (r >>> 8))
  let p1 ← writeAt p0 (addInt i 1) (toByte r)
  let p2 ← writeAt p1 (addInt i 2) (toByte (g >>> 8))
  let p3 ← writeAt p2 (addInt i 3) (toByte g)
  let p4 ← writeAt p3 (addInt i 4) (toByte (b >>> 8))
  writeAt p4 (addInt i 5) (toByte b)

/-- The method `RGB48Image.SetRGB48` of `rgb48.go`; `c` is the `[3]uint16`
argument, the result the image after the call. -/
def RGB48Image.SetRGB48 (p : RGB48Image) (x y : Int) (c : Nat × Nat × Nat) :
    Option RGB48Image :=
  if !(Point.In ⟨x, y⟩ p.Rect) then some p
  else (store48 p.Pix (p.PixOffset x y) c.1 c.2.1 c.2.2).map (fun pix => ⟨pix, p.Stride, p.Rect⟩)

/-- The `RGBA()` method of a `color.Color` value. -/
def ColorValue.RGBA : ColorValue → Option Quad
  | .generic c => c.RGBA
  | .other r g b a => some (r, g, b, a)

/-- The method `RGB48Image.Set` of `rgb48.go`: `color.RGBA64Model.Convert(c)`
narrows the `RGBA()` results of `c` to `uint16`. -/
def RGB48Image.Set (p : RGB48Image) (x y : Int) (c : ColorValue) : Option RGB48Image :=
  if !(Point.In ⟨x, y⟩ p.Rect) then some p
  else do
    let (r, g, b, _) ← c.RGBA
    let pix ← store48 p.Pix (p.PixOffset x y) (r % 2 ^ 16) (g % 2 ^ 16) (b % 2 ^ 16)
    pure ⟨pix, p.Stride, p.Rect⟩

/-- Go's slice expression `pix[i:]`, a panic for `i` outside `0..len(pix)`. -/
def sliceFrom (pix : List Byte) (i : Int) : Option (List Byte) :=
  if 0 ≤ i ∧ i.toNat ≤ pix.length then some (pix.drop i.toNat) else none

/-- The method `RGB48Image.SubImage` of `rgb48.go`. The result shares its
pixels with `p`; here it holds the bytes it sees. -/
def RGB48Image.SubImage (p : RGB48Image) (r : Rectangle) : Option RGB48Image :=
  let r := r.Intersect p.Rect
  if r.Empty then some ⟨[], 0, ZR⟩
  else (sliceFrom p.Pix (p.PixOffset r.Min.X r.Min.Y)).map (fun pix => ⟨pix, p.Stride, r⟩)

/-- The function `NewRGB48Image` of `rgb48.go`. -/
def NewRGB48Image (r : Rectangle) : Option RGB48Image :=
  (makePix (mulInt (mulInt 6 r.Dx) r.Dy)).map (fun pix => ⟨pix, mulInt 6 r.Dx, r⟩)

/-- The rectangles `NewRGB48Image` can allocate: `Min <= Max` in both
directions, and the stride `6 * w` and the size `6 * w * h` (as exact integers,
`w` and `h` the width and height) fit an `int` and the allocation limit. -/
def Rectangle.Allocatable (r : Rectangle) : Prop :=
  r.Min.X ≤ r.Max.X ∧ r.Min.Y ≤ r.Max.Y
    ∧ 6 * (r.Max.X - r.Min.X) ≤ maxAlloc
    ∧ 6 * (r.Max.X - r.Min.X) * (r.Max.Y - r.Min.Y) ≤ maxAlloc

/-- The shape `NewRGB48Image` gives an image over an allocatable rectangle,
which `Set` and `SetRGB48` keep: six bytes per pixel of the rectangle, rows
`Stride` apart. -/
def RGB48Image.Allocated (p : RGB48Image) : Prop :=
  p.Rect.Allocatable ∧ p.Stride = 6 * (p.Rect.Max.X - p.Rect.Min.X)
    ∧ (p.Pix.length : Int)
      = 6 * (p.Rect.Max.X - p.Rect.Min.X) * (p.Rect.Max.Y - p.Rect.Min.Y)

/-- The images whose pixel offsets are computed without overflow: a
non-negative stride, and the offset one row and one column past the last
pixel of `Rect`, with the five bytes after it, fits an `int`. -/
def RGB48Image.OffsetsFit (p : RGB48Image) : Prop :=
  0 ≤ p.Stride
    ∧ (p.Rect.Max.Y - p.Rect.Min.Y) * p.Stride + (p.Rect.Max.X - p.Rect.Min.X) * 3 + 5
        < 9223372036854775808

/-- The data-model invariant of a `Color`: a kind of the width table and a
buffer of exactly `Channels` elements. -/
def Color.WellFormed (c : Color) : Prop :=
  0 < SizeofKind c.DataType ∧ (c.Pix.length : Int) = c.Channels * SizeofKind c.DataType

/-- The colours `colorModelConvert` can be given without running into a
contract violation of the accessor: any colour of another type, and the
well-formed `Color`s. -/
def ColorValue.WellFormed : ColorValue → Prop
  | .generic c => c.WellFormed
  | .other _ _ _ _ => True

/-! ## Auxiliary facts -/

theorem wrapInt_of_range (n : Int) (h0 : -9223372036854775808 ≤ n)
    (h1 : n < 9223372036854775808) : wrapInt n = n := by
  unfold wrapInt
  omega

theorem wrapInt_modEq (n : Int) : wrapInt n ≡ n [ZMOD 18446744073709551616] := by
  unfold wrapInt Int.ModEq
  omega

theorem wrapInt_congr {a b : Int} (h : a ≡ b [ZMOD 18446744073709551616]) :
    wrapInt a = wrapInt b := by
  unfold Int.ModEq at h
  unfold wrapInt
  omega

/-- The offset `PixOffset` computes is the exact offset reduced to an `int`. -/
theorem PixOffset_eq (p : RGB48Image) (x y : Int) :
    p.PixOffset x y
      = wrapInt ((y - p.Rect.Min.Y) * p.Stride + (x - p.Rect.Min.X) * 3) := by
  unfold RGB48Image.PixOffset addInt mulInt subInt
  apply wrapInt_congr
  exact Int.ModEq.add
    ((wrapInt_modEq _).trans (Int.ModEq.mul_right _ (wrapInt_modEq _)))
    ((wrapInt_modEq _).trans (Int.ModEq.mul_right _ (wrapInt_modEq _)))

set_option maxRecDepth 100000 in
theorem widen8_byte (y : Byte) : widen8 y.val = y.val * 0x101 := by
  revert y; decide

theorem copyPix_length (dst src : PixSilce) : (copyPix dst src).length = dst.length := by
  simp only [copyPix, List.length_append, List.length_take, List.length_drop]
  omega

theorem copyPix_same_length (dst src : PixSilce) (h : src.length = dst.length) :
    copyPix dst src = src := by
  simp [copyPix, ← h]

theorem setByte_length {p p' : PixSilce} {i : Nat} {b : Byte} (h : setByte p i b = some p') :
    p'.length = p.length := by
  unfold setByte at h
  split at h
  · cases h; simp
  · cases h

theorem setElem_length {d d' : PixSilce} {i : Nat} {bs : List Byte}
    (h : d.setElem i bs = some d') : d'.length = d.length := by
  unfold PixSilce.setElem at h
  split at h
  · rename_i hc
    cases h
    have hm : (i + 1) * bs.length = i * bs.length + bs.length := Nat.succ_mul i bs.length
    rw [hm] at hc ⊢
    simp only [List.length_append, List.length_take, List.length_drop]
    omega
  · cases h

theorem SetValue_length {d d' : PixSilce} {i : Nat} {k : Kind} {v : Float64}
    (h : d.SetValue i k v = some d') : d'.length = d.length := by
  unfold PixSilce.SetValue at h
  cases hv : encodeValue k v with
  | none => simp [hv] at h
  | some bs =>
    simp only [hv, Option.some_bind] at h
    exact setElem_length h

/-- A property of the buffer that every step of a loop keeps is kept by the
whole loop. -/
theorem foldlM_keeps {α : Type} (I : PixSilce → Prop) (f : PixSilce → α → Option PixSilce)
    (hf : ∀ p i p', f p i = some p' → I p → I p') :
    ∀ (l : List α) (pix p' : PixSilce), l.foldlM f pix = some p' → I pix → I p' := by
  intro l
  induction l with
  | nil =>
    intro pix p' h hI
    simp only [List.foldlM_nil] at h
    cases h
    exact hI
  | cons a l ih =>
    intro pix p' h hI
    simp only [List.foldlM_cons] at h
    cases h1 : f pix a with
    | none => simp [h1] at h
    | some p1 =>
      simp only [h1, Option.some_bind, Option.bind_eq_bind] at h
      exact ih p1 p' h (hf pix a p1 h1 hI)

/-- A loop whose every step succeeds on the buffers satisfying an invariant,
and keeps the invariant, succeeds. -/
theorem foldlM_succeeds {α : Type} (I : PixSilce → Prop) (f : PixSilce → α → Option PixSilce) :
    ∀ (l : List α), (∀ p i, i ∈ l → I p → ∃ p', f p i = some p' ∧ I p') →
      ∀ pix, I pix → ∃ p', l.foldlM f pix = some p' ∧ I p' := by
  intro l
  induction l with
  | nil =>
    intro _ pix hI
    exact ⟨pix, by simp, hI⟩
  | cons a l ih =>
    intro hf pix hI
    obtain ⟨p1, h1, hI1⟩ := hf pix a (List.mem_cons_self a l) hI
    obtain ⟨p2, h2, hI2⟩ := ih (fun p i hi hp => hf p i (List.mem_cons_of_mem a hi) hp) p1 hI1
    exact ⟨p2, by simp [List.foldlM_cons, h1, h2], hI2⟩

theorem remapChannels_length {c1 : Color} {k : Kind} {n : Nat} {pix p' : PixSilce}
    (h : remapChannels c1 k n pix = some p') : p'.length = pix.length := by
  refine foldlM_keeps (fun p => p.length = pix.length) _ ?_ _ pix p' h rfl
  intro p i q hq hp
  cases hv : c1.Pix.Value i c1.DataType with
  | none => simp [hv] at hq
  | some v =>
    simp only [hv, Option.some_bind] at hq
    rw [SetValue_length hq, hp]

theorem storeRGBA_length {rgba : List Nat} {k : Kind} {n : Nat} {pix p' : PixSilce}
    (h : storeRGBA rgba k n pix = some p') : p'.length = pix.length := by
  refine foldlM_keeps (fun p => p.length = pix.length) _ ?_ _ pix p' h rfl
  intro p i q hq hp
  rw [SetValue_length hq, hp]

theorem setBytes_length {pix p' : PixSilce} {bs : List Byte}
    (h : setBytes pix bs = some p') : p'.length = pix.length := by
  refine foldlM_keeps (fun p => p.length = pix.length) _ ?_ _ pix p' h rfl
  intro p i q hq hp
  rw [setByte_length hq, hp]

theorem makePix_length {n : Int} {pix : PixSilce} (h : makePix n = some pix) :
    (pix.length : Int) = n := by
  unfold makePix at h
  split at h
  · cases h
  · cases h
    simp only [List.length_replicate]
    omega

/-- The sizes `make` accepts. -/
theorem makePix_some (n : Int) (h0 : 0 ≤ n) (h1 : n ≤ maxAlloc) :
    makePix n = some (List.replicate n.toNat 0) := by
  unfold makePix
  rw [if_neg (by omega)]

theorem maxAlloc_lt : maxAlloc < 9223372036854775808 := by decide

/-- Go's product of two `int`s whose exact product is a size `make` accepts is
that product. -/
theorem mulInt_of_size (a b : Int) (h0 : 0 ≤ a * b) (h1 : a * b ≤ maxAlloc) :
    mulInt a b = a * b := by
  have := maxAlloc_lt
  exact wrapInt_of_range _ (by omega) (by omega)

/-- Whatever path `colorModelConvert` takes, a result it returns has the
requested channel count and kind and a buffer of the allocated length. -/
theorem colorModelConvert_shape {channels : Int} {dataType : Kind} {c : ColorValue}
    {z : Color} (h : colorModelConvert channels dataType c = some z) :
    z.Channels = channels ∧ z.DataType = dataType
      ∧ (z.Pix.length : Int) = mulInt channels (SizeofKind dataType) := by
  unfold colorModelConvert at h
  cases hp : makePix (mulInt channels (SizeofKind dataType)) with
  | none => simp [hp] at h
  | some pix =>
    have hl := makePix_length hp
    simp only [hp, Option.some_bind] at h
    cases c with
    | generic c1 =>
      simp only at h
      split at h
      · cases h; simp [copyPix_length, hl]
      · split at h
        · cases h; simp [copyPix_length, hl]
        · rw [Option.map_eq_some'] at h
          obtain ⟨q, hq, rfl⟩ := h
          simp [remapChannels_length hq, hl]
    | other r g b a =>
      simp only at h
      repeat' split at h
      all_goals
        rw [Option.map_eq_some'] at h
        obtain ⟨q, hq, rfl⟩ := h
        first
          | simp [setBytes_length hq, hl]
          | simp [storeRGBA_length hq, hl]

theorem SizeofKind_pos_cases {k : Kind} (h : 0 < SizeofKind k) :
    k = reflect.Int8 ∨ k = reflect.Int16 ∨ k = reflect.Int32 ∨ k = reflect.Int64
    ∨ k = reflect.Uint8 ∨ k = reflect.Uint16 ∨ k = reflect.Uint32 ∨ k = reflect.Uint64
    ∨ k = reflect.Float32 ∨ k = reflect.Float64 ∨ k = reflect.Complex64
    ∨ k = reflect.Complex128 := by
  unfold SizeofKind at h
  by_contra hc
  simp only [not_or] at hc
  obtain ⟨h1, h2, h3, h4, h5, h6, h7, h8, h9, h10, h11, h12⟩ := hc
  simp [h1, h2, h3, h4, h5, h6, h7, h8, h9, h10, h11, h12] at h

theorem beEncode_length (size n : Nat) : (beEncode size n).length = size := by
  simp [beEncode]

/-- Reading an element of a kind of the width table at an index inside the
buffer succeeds. -/
theorem Value_some (d : PixSilce) (i : Nat) (k : Kind) (hk : 0 < SizeofKind k)
    (hi : (i + 1) * (SizeofKind k).toNat ≤ d.length) : ∃ v, d.Value i k = some v := by
  rcases SizeofKind_pos_cases hk with h | h | h | h | h | h | h | h | h | h | h | h <;>
    subst h <;>
    simp [SizeofKind] at hi <;>
    simp [PixSilce.Value, PixSilce.elem, SizeofKind, hi]

/-- The bytes stored for an element of a kind of the width table are as many
as the kind is wide. -/
theorem encodeValue_some (k : Kind) (v : Float64) (hk : 0 < SizeofKind k) :
    ∃ bs, encodeValue k v = some bs ∧ bs.length = (SizeofKind k).toNat := by
  rcases SizeofKind_pos_cases hk with h | h | h | h | h | h | h | h | h | h | h | h <;>
    subst h <;>
    simp [encodeValue, SizeofKind, beEncode_length]

/-- Storing an element of a kind of the width table at an index inside the
buffer succeeds. -/
theorem SetValue_some (d : PixSilce) (i : Nat) (k : Kind) (v : Float64)
    (hk : 0 < SizeofKind k) (hi : (i + 1) * (SizeofKind k).toNat ≤ d.length) :
    ∃ d', d.SetValue i k v = some d' := by
  obtain ⟨bs, hbs, hlen⟩ := encodeValue_some k v hk
  have hpos : 0 < bs.length := by omega
  simp [PixSilce.SetValue, hbs, PixSilce.setElem, hlen, hi]
  omega

/-- The remap loop over `n` channels succeeds when both buffers hold at least
`n` elements of kinds of the width table. -/
theorem remapChannels_some (c1 : Color) (k : Kind) (n : Nat) (pix : PixSilce)
    (h1 : 0 < SizeofKind c1.DataType) (hn1 : n * (SizeofKind c1.DataType).toNat ≤ c1.Pix.length)
    (h2 : 0 < SizeofKind k) (hn2 : n * (SizeofKind k).toNat ≤ pix.length) :
    ∃ p', remapChannels c1 k n pix = some p' := by
  have key := foldlM_succeeds (fun p => p.length = pix.length)
    (fun p i => (c1.Pix.Value i c1.DataType).bind (fun v => p.SetValue i k v))
    (List.range n) ?_ pix rfl
  · obtain ⟨p', hp, _⟩ := key
    exact ⟨p', hp⟩
  · intro p i hi hp
    have hin : i + 1 ≤ n := by
      have := List.mem_range.mp hi
      omega
    obtain ⟨v, hv⟩ := Value_some c1.Pix i c1.DataType h1
      (le_trans (Nat.mul_le_mul_right _ hin) hn1)
    obtain ⟨q, hq⟩ := SetValue_some p i k v h2
      (by rw [hp]; exact le_trans (Nat.mul_le_mul_right _ hin) hn2)
    exact ⟨q, by simp [hv, hq], (SetValue_length hq).trans hp⟩

theorem SizeofKind_nonneg (k : Kind) : 0 ≤ SizeofKind k := by
  by_cases h : 0 < SizeofKind k
  · exact le_of_lt h
  · have hc : ¬ (k = reflect.Int8 ∨ k = reflect.Int16 ∨ k = reflect.Int32 ∨ k = reflect.Int64
        ∨ k = reflect.Uint8 ∨ k = reflect.Uint16 ∨ k = reflect.Uint32 ∨ k = reflect.Uint64
        ∨ k = reflect.Float32 ∨ k = reflect.Float64 ∨ k = reflect.Complex64
        ∨ k = reflect.Complex128) := by
      intro hk
      apply h
      rcases hk with h | h | h | h | h | h | h | h | h | h | h | h <;> subst h <;> decide
    simp only [not_or] at hc
    obtain ⟨h1, h2, h3, h4, h5, h6, h7, h8, h9, h10, h11, h12⟩ := hc
    simp [SizeofKind, h1, h2, h3, h4, h5, h6, h7, h8, h9, h10, h11, h12]

theorem toBitsInt_ofInt_natCast (w n : Nat) (h : n < 2 ^ 53) :
    Float64.toBitsInt w (Float64.ofInt (n : Int)) = n % 2 ^ w := by
  have h0 : ¬ ((n : Int) < 0) := by omega
  have e : Float64.ofInt (n : Int) = Float64.fin false n 0 := by
    unfold Float64.ofInt
    rw [if_pos (by simpa using h)]
    simp [h0]
  rw [e]
  simp only [Float64.toBitsInt, Float64.trunc, le_refl, if_true, Int.toNat_zero, pow_zero,
    mul_one, Bool.false_eq_true, if_false]
  norm_cast

theorem toByte_mod (n : Nat) : toByte (n % 256) = toByte n := by
  simp [toByte]

theorem toBitsInt_pair (w : Nat) (x y : Byte) :
    Float64.toBitsInt w (Float64.ofInt (((x.val : Nat) : Int) * 256 + ((y.val : Nat) : Int)))
      = (x.val * 256 + y.val) % 2 ^ w := by
  have h := toBitsInt_ofInt_natCast w (x.val * 256 + y.val) (by omega)
  push_cast at h
  exact h

theorem convert_u16_to_u8 (a0 a1 b0 b1 c0 c1 : Byte) :
    colorModelConvert 3 reflect.Uint8 (.generic ⟨3, reflect.Uint16, [a0, a1, b0, b1, c0, c1]⟩)
      = some ⟨3, reflect.Uint8, [toByte (a0.val * 256 + a1.val), toByte (b0.val * 256 + b1.val),
          toByte (c0.val * 256 + c1.val)]⟩ := by
  have hm : makePix (mulInt 3 (SizeofKind reflect.Uint8)) = some [0, 0, 0] := by decide
  unfold colorModelConvert
  rw [hm]
  simp [remapChannels, List.range_succ, PixSilce.Value, PixSilce.elem,
    SizeofKind, beDecode, PixSilce.SetValue, encodeValue, beEncode, PixSilce.setElem,
    toBitsInt_pair, toByte_mod]

theorem toBitsInt_byte (w : Nat) (x : Byte) :
    Float64.toBitsInt w (Float64.ofInt ((x.val : Nat) : Int)) = x.val % 2 ^ w :=
  toBitsInt_ofInt_natCast w x.val (by omega)

theorem toByte_val (v : Byte) : toByte v.val = v :=
  Fin.ext (Nat.mod_eq_of_lt v.isLt)

theorem toByte_zero : toByte 0 = 0 := rfl

theorem RGBA_3_u8 (r g b : Byte) :
    Color.RGBA ⟨3, reflect.Uint8, [r, g, b]⟩
      = some (r.val * 0x101, g.val * 0x101, b.val * 0x101, 0xFFFF) := by
  simp [Color.RGBA, RGBA8RGBA, widen8_byte]
  decide

theorem RGBA_2_u8 (r g : Byte) :
    Color.RGBA ⟨2, reflect.Uint8, [r, g]⟩
      = some (r.val * 0x101, g.val * 0x101, 0xFFFF, 0xFFFF) := by
  simp [Color.RGBA, RGBA8RGBA, widen8_byte]
  decide

theorem RGBA_1_u8 (v : Byte) :
    Color.RGBA ⟨1, reflect.Uint8, [v]⟩
      = some (v.val * 0x101, v.val * 0x101, v.val * 0x101, 0xFFFF) := by
  simp [Color.RGBA, GrayRGBA, widen8_byte]

theorem convert_other_3_u8 (r g b a : Nat) :
    colorModelConvert 3 reflect.Uint8 (.other r g b a)
      = some ⟨3, reflect.Uint8, [toByte (r >>> 8), toByte (g >>> 8), toByte (b >>> 8)]⟩ := by
  have hm : makePix (mulInt 3 (SizeofKind reflect.Uint8)) = some [0, 0, 0] := by decide
  unfold colorModelConvert
  rw [hm]
  simp [setBytes, setByte, List.range_succ]

theorem convert_other_3_u16 (r g b a : Nat) :
    colorModelConvert 3 reflect.Uint16 (.other r g b a)
      = some ⟨3, reflect.Uint16, [toByte (r >>> 8), toByte r, toByte (g >>> 8), toByte g,
          toByte (b >>> 8), toByte b]⟩ := by
  have hm : makePix (mulInt 3 (SizeofKind reflect.Uint16)) = some [0, 0, 0, 0, 0, 0] := by decide
  unfold colorModelConvert
  rw [hm]
  simp [setBytes, setByte, List.range_succ]

theorem convert_other_4_u8 (r g b a : Nat) :
    colorModelConvert 4 reflect.Uint8 (.other r g b a)
      = some ⟨4, reflect.Uint8, [toByte (r >>> 8), toByte (g >>> 8), toByte (b >>> 8),
          toByte (a >>> 8)]⟩ := by
  have hm : makePix (mulInt 4 (SizeofKind reflect.Uint8)) = some [0, 0, 0, 0] := by decide
  unfold colorModelConvert
  rw [hm]
  simp [setBytes, setByte, List.range_succ]

theorem convert_other_4_u16 (r g b a : Nat) :
    colorModelConvert 4 reflect.Uint16 (.other r g b a)
      = some ⟨4, reflect.Uint16, [toByte (r >>> 8), toByte r, toByte (g >>> 8), toByte g,
          toByte (b >>> 8), toByte b, toByte (a >>> 8), toByte a]⟩ := by
  have hm : makePix (mulInt 4 (SizeofKind reflect.Uint16)) = some [0, 0, 0, 0, 0, 0, 0, 0] := by decide
  unfold colorModelConvert
  rw [hm]
  simp [setBytes, setByte, List.range_succ]

theorem toByte_shift_val (v : Nat) (h : v ≤ 0xFFFF) : (toByte (v >>> 8)).val = v / 256 := by
  simp only [toByte, Nat.shiftRight_eq_div_pow]
  omega

theorem toByte_low_val (v : Nat) : (toByte v).val = v % 256 := rfl

theorem RGBA_4_u8 (r g b a : Byte) :
    Color.RGBA ⟨4, reflect.Uint8, [r, g, b, a]⟩
      = some (r.val * 0x101, g.val * 0x101, b.val * 0x101, a.val * 0x101) := by
  simp [Color.RGBA, RGBA8RGBA, widen8_byte]

theorem convert_other_1_u8 (r g b a : Nat) :
    colorModelConvert 1 reflect.Uint8 (.other r g b a)
      = some ⟨1, reflect.Uint8, [grayModelY r g b]⟩ := by
  have hm : makePix (mulInt 1 (SizeofKind reflect.Uint8)) = some [0] := by decide
  unfold colorModelConvert
  rw [hm]
  simp [setBytes, setByte, List.range_succ]

theorem convert_other_1_u16 (r g b a : Nat) :
    colorModelConvert 1 reflect.Uint16 (.other r g b a)
      = some ⟨1, reflect.Uint16,
          [toByte (gray16ModelY r g b >>> 8), toByte (gray16ModelY r g b)]⟩ := by
  have hm : makePix (mulInt 1 (SizeofKind reflect.Uint16)) = some [0, 0] := by decide
  unfold colorModelConvert
  rw [hm]
  simp [setBytes, setByte, List.range_succ]

/-- The final loop over `n` channels succeeds when the buffer holds at least
`n` elements of a kind of the width table. -/
theorem storeRGBA_some (rgba : List Nat) (k : Kind) (n : Nat) (pix : PixSilce)
    (hk : 0 < SizeofKind k) (hn : n * (SizeofKind k).toNat ≤ pix.length) :
    ∃ p', storeRGBA rgba k n pix = some p' := by
  have key := foldlM_succeeds (fun p => p.length = pix.length)
    (fun p i => p.SetValue i k (Float64.ofInt ((rgba.getD i 0 : Nat) : Int)))
    (List.range n) ?_ pix rfl
  · obtain ⟨p', hp, _⟩ := key
    exact ⟨p', hp⟩
  · intro p i hi hp
    have hin : i + 1 ≤ n := by
      have := List.mem_range.mp hi
      omega
    obtain ⟨q, hq⟩ := SetValue_some p i k (Float64.ofInt ((rgba.getD i 0 : Nat) : Int)) hk
      (by rw [hp]; exact le_trans (Nat.mul_le_mul_right _ hin) hn)
    exact ⟨q, hq, (SetValue_length hq).trans hp⟩

/-- On a well-formed colour, a non-negative channel count and a kind of the
width table, with a buffer size within the allocation limit,
`colorModelConvert` returns. -/
theorem colorModelConvert_some (channels : Int) (t : Kind) (c : ColorValue)
    (hc : 0 ≤ channels) (ht : 0 < SizeofKind t) (hsize : channels * SizeofKind t ≤ maxAlloc)
    (hw : c.WellFormed) :
    ∃ z, colorModelConvert channels t c = some z := by
  have hsz : 0 ≤ channels * SizeofKind t := Int.mul_nonneg hc (le_of_lt ht)
  have hm : makePix (mulInt channels (SizeofKind t))
      = some (List.replicate (channels * SizeofKind t).toNat 0) := by
    rw [mulInt_of_size _ _ hsz hsize]
    exact makePix_some _ hsz hsize
  have hmul : ∀ (n : Nat) (m s : Int), (n : Int) ≤ m → 0 < s → 0 ≤ m →
      n * s.toNat ≤ (m * s).toNat := by
    intro n m s hnm hs hm0
    have h1 : (n : Int) * s ≤ m * s := Int.mul_le_mul_of_nonneg_right hnm (le_of_lt hs)
    have h2 : ((n * s.toNat : Nat) : Int) = (n : Int) * s := by
      push_cast
      rw [Int.toNat_of_nonneg (le_of_lt hs)]
    have h3 : 0 ≤ m * s := Int.mul_nonneg hm0 (le_of_lt hs)
    omega
  cases c with
  | generic c1 =>
    obtain ⟨hk, hlen⟩ := hw
    unfold colorModelConvert
    simp only [hm, Option.some_bind]
    split
    · exact ⟨_, rfl⟩
    · split
      · exact ⟨_, rfl⟩
      · have hch : 0 ≤ c1.Channels := by
          by_contra hneg
          have : c1.Channels * SizeofKind c1.DataType < 0 :=
            Int.mul_neg_of_neg_of_pos (by omega) hk
          omega
        obtain ⟨p, hp⟩ := remapChannels_some c1 t (min c1.Channels channels).toNat
          (List.replicate (channels * SizeofKind t).toNat 0) hk
          (by
            have := hmul (min c1.Channels channels).toNat c1.Channels _ (by omega) hk hch
            omega)
          ht
          (by
            have := hmul (min c1.Channels channels).toNat channels _ (by omega) ht hc
            simpa using this)
        exact ⟨_, by rw [hp]; rfl⟩
  | other r g b a =>
    by_cases h1 : channels = 1 ∧ t = reflect.Uint8
    · obtain ⟨rfl, rfl⟩ := h1
      exact ⟨_, convert_other_1_u8 r g b a⟩
    by_cases h2 : channels = 1 ∧ t = reflect.Uint16
    · obtain ⟨rfl, rfl⟩ := h2
      exact ⟨_, convert_other_1_u16 r g b a⟩
    by_cases h3 : channels = 3 ∧ t = reflect.Uint8
    · obtain ⟨rfl, rfl⟩ := h3
      exact ⟨_, convert_other_3_u8 r g b a⟩
    by_cases h4 : channels = 3 ∧ t = reflect.Uint16
    · obtain ⟨rfl, rfl⟩ := h4
      exact ⟨_, convert_other_3_u16 r g b a⟩
    by_cases h5 : channels = 4 ∧ t = reflect.Uint8
    · obtain ⟨rfl, rfl⟩ := h5
      exact ⟨_, convert_other_4_u8 r g b a⟩
    by_cases h6 : channels = 4 ∧ t = reflect.Uint16
    · obtain ⟨rfl, rfl⟩ := h6
      exact ⟨_, convert_other_4_u16 r g b a⟩
    obtain ⟨p, hp⟩ := storeRGBA_some [r, g, b, a] t (min channels 4).toNat
      (List.replicate (channels * SizeofKind t).toNat 0) ht
      (by
        have := hmul (min channels 4).toNat channels _ (by omega) ht hc
        simpa using this)
    unfold colorModelConvert
    simp only [hm, Option.some_bind, h1, h2, h3, h4, h5, h6, if_false]
    exact ⟨_, by rw [hp]; rfl⟩

theorem join16_eq (hi lo : Byte) : join16 hi lo = hi.val * 256 + lo.val := by
  unfold join16
  rw [Nat.shiftLeft_eq, Nat.mul_comm]
  exact (Nat.mul_add_lt_is_or (i := 8) lo.isLt hi.val).symm

theorem join16_split (c : Nat) (h : c ≤ 0xFFFF) :
    join16 (toByte (c >>> 8)) (toByte c) = c := by
  rw [join16_eq, toByte_shift_val c h, toByte_low_val]
  omega

theorem writeAt_length {pix pix' : List Byte} {i : Int} {b : Byte}
    (h : writeAt pix i b = some pix') : pix'.length = pix.length := by
  unfold writeAt at h
  split at h
  · cases h; simp
  · cases h

theorem writeAt_some (pix : List Byte) (i : Int) (b : Byte) (h0 : 0 ≤ i)
    (h1 : i < pix.length) : ∃ pix', writeAt pix i b = some pix' := by
  have : i.toNat < pix.length := by omega
  exact ⟨pix.set i.toNat b, by simp [writeAt, h0, this]⟩

theorem readAt_writeAt_same {pix pix' : List Byte} {i : Int} {b : Byte}
    (h : writeAt pix i b = some pix') : readAt pix' i = some b := by
  unfold writeAt at h
  split at h
  · rename_i hc
    cases h
    simp [readAt, hc.1, hc.2]
  · cases h

theorem readAt_writeAt_other {pix pix' : List Byte} {i j : Int} {b : Byte}
    (h : writeAt pix i b = some pix') (hij : i ≠ j) : readAt pix' j = readAt pix j := by
  unfold writeAt at h
  split at h
  · rename_i hc
    cases h
    unfold readAt
    split
    · rename_i hj
      have : i.toNat ≠ j.toNat := by omega
      simp [List.getElem?_set_ne this]
    · rfl
  · cases h

/-- The six stores at an offset inside the buffer succeed, keep the length,
leave the six bytes written, and change no other byte. -/
theorem store48_spec (pix : List Byte) (i : Int) (r g b : Nat) (h0 : 0 ≤ i)
    (h1 : i + 5 < pix.length) (h63 : (pix.length : Int) < 9223372036854775808) :
    ∃ pix', store48 pix i r g b = some pix' ∧ pix'.length = pix.length
      ∧ readAt pix' (i + 0) = some (toByte (r >>> 8)) ∧ readAt pix' (i + 1) = some (toByte r)
      ∧ readAt pix' (i + 2) = some (toByte (g >>> 8)) ∧ readAt pix' (i + 3) = some (toByte g)
      ∧ readAt pix' (i + 4) = some (toByte (b >>> 8)) ∧ readAt pix' (i + 5) = some (toByte b)
      ∧ ∀ j, (j < i ∨ i + 5 < j) → readAt pix' j = readAt pix j := by
  obtain ⟨p0, w0⟩ := writeAt_some pix (i + 0) (toByte (r >>> 8)) (by omega) (by omega)
  have l0 := writeAt_length w0
  obtain ⟨p1, w1⟩ := writeAt_some p0 (i + 1) (toByte r) (by omega) (by omega)
  have l1 := writeAt_length w1
  obtain ⟨p2, w2⟩ := writeAt_some p1 (i + 2) (toByte (g >>> 8)) (by omega) (by omega)
  have l2 := writeAt_length w2
  obtain ⟨p3, w3⟩ := writeAt_some p2 (i + 3) (toByte g) (by omega) (by omega)
  have l3 := writeAt_length w3
  obtain ⟨p4, w4⟩ := writeAt_some p3 (i + 4) (toByte (b >>> 8)) (by omega) (by omega)
  have l4 := writeAt_length w4
  obtain ⟨p5, w5⟩ := writeAt_some p4 (i + 5) (toByte b) (by omega) (by omega)
  have l5 := writeAt_length w5
  have e : ∀ k : Int, 0 ≤ k → k ≤ 5 → addInt i k = i + k :=
    fun k hk0 hk5 => wrapInt_of_range _ (by omega) (by omega)
  refine ⟨p5, by
    simp only [store48, e 0 (by omega) (by omega), e 1 (by omega) (by omega),
      e 2 (by omega) (by omega), e 3 (by omega) (by omega), e 4 (by omega) (by omega),
      e 5 (by omega) (by omega), w0, w1, w2, w3, w4, w5, Option.bind_eq_bind,
      Option.some_bind], by omega, ?_, ?_, ?_, ?_, ?_, ?_, ?_⟩
  · rw [readAt_writeAt_other w5 (by omega), readAt_writeAt_other w4 (by omega),
      readAt_writeAt_other w3 (by omega), readAt_writeAt_other w2 (by omega),
      readAt_writeAt_other w1 (by omega), readAt_writeAt_same w0]
  · rw [readAt_writeAt_other w5 (by omega), readAt_writeAt_other w4 (by omega),
      readAt_writeAt_other w3 (by omega), readAt_writeAt_other w2 (by omega),
      readAt_writeAt_same w1]
  · rw [readAt_writeAt_other w5 (by omega), readAt_writeAt_other w4 (by omega),
      readAt_writeAt_other w3 (by omega), readAt_writeAt_same w2]
  · rw [readAt_writeAt_other w5 (by omega), readAt_writeAt_other w4 (by omega),
      readAt_writeAt_same w3]
  · rw [readAt_writeAt_other w5 (by omega), readAt_writeAt_same w4]
  · rw [readAt_writeAt_same w5]
  · intro j hj
    rw [readAt_writeAt_other w5 (by omega), readAt_writeAt_other w4 (by omega),
      readAt_writeAt_other w3 (by omega), readAt_writeAt_other w2 (by omega),
      readAt_writeAt_other w1 (by omega), readAt_writeAt_other w0 (by omega)]

theorem In_iff (x y : Int) (r : Rectangle) :
    Point.In ⟨x, y⟩ r = true ↔ r.Min.X ≤ x ∧ x < r.Max.X ∧ r.Min.Y ≤ y ∧ y < r.Max.Y := by
  simp [Point.In]

/-- On an allocatable rectangle `NewRGB48Image` returns: the stride and the
size it computes are the exact `6 * w` and `6 * w * h`. -/
theorem NewRGB48Image_eq (r : Rectangle) (ha : r.Allocatable) :
    NewRGB48Image r
      = some ⟨List.replicate (6 * (r.Max.X - r.Min.X) * (r.Max.Y - r.Min.Y)).toNat 0,
          6 * (r.Max.X - r.Min.X), r⟩
    ∧ mulInt 6 r.Dx = 6 * (r.Max.X - r.Min.X)
    ∧ mulInt (mulInt 6 r.Dx) r.Dy = 6 * (r.Max.X - r.Min.X) * (r.Max.Y - r.Min.Y) := by
  obtain ⟨hx, hy, hw, hsz⟩ := ha
  have hlt := maxAlloc_lt
  have h0 : 0 ≤ 6 * (r.Max.X - r.Min.X) * (r.Max.Y - r.Min.Y) :=
    Int.mul_nonneg (by omega) (by omega)
  have e1 : mulInt 6 r.Dx = 6 * (r.Max.X - r.Min.X) := by
    unfold mulInt Rectangle.Dx subInt
    rw [wrapInt_of_range (r.Max.X - r.Min.X) (by omega) (by omega)]
    exact wrapInt_of_range _ (by omega) (by omega)
  have e2 : mulInt (mulInt 6 r.Dx) r.Dy
      = 6 * (r.Max.X - r.Min.X) * (r.Max.Y - r.Min.Y) := by
    rw [e1]
    unfold mulInt Rectangle.Dy subInt
    rw [wrapInt_congr (Int.ModEq.mul_left _ (wrapInt_modEq _))]
    exact wrapInt_of_range _ (by omega) (by omega)
  refine ⟨?_, e1, e2⟩
  unfold NewRGB48Image
  rw [e2, e1, makePix_some _ h0 hsz]
  rfl

/-- The image `NewRGB48Image` returns on an allocatable rectangle has the
allocated shape. -/
theorem NewRGB48Image_spec {r : Rectangle} {p : RGB48Image} (ha : r.Allocatable)
    (h : NewRGB48Image r = some p) :
    p.Rect = r ∧ p.Allocated
      ∧ p.Pix = List.replicate (6 * (r.Max.X - r.Min.X) * (r.Max.Y - r.Min.Y)).toNat 0 := by
  rw [(NewRGB48Image_eq r ha).1] at h
  cases h
  have h0 : 0 ≤ 6 * (r.Max.X - r.Min.X) * (r.Max.Y - r.Min.Y) :=
    Int.mul_nonneg (by have := ha.1; omega) (by have := ha.2.1; omega)
  refine ⟨rfl, ⟨ha, rfl, ?_⟩, rfl⟩
  simp only [List.length_replicate]
  omega

/-- The exact offset of a point of the rectangle of an allocated image lies in
the buffer, with the five bytes after it. -/
theorem exact_offset_bounds (p : RGB48Image) (hp : p.Allocated) (x y : Int)
    (hin : Point.In ⟨x, y⟩ p.Rect = true) :
    0 ≤ (y - p.Rect.Min.Y) * p.Stride + (x - p.Rect.Min.X) * 3
    ∧ (y - p.Rect.Min.Y) * p.Stride + (x - p.Rect.Min.X) * 3 + 5 < p.Pix.length := by
  obtain ⟨_, hs, hl⟩ := hp
  rw [In_iff] at hin
  obtain ⟨hx0, hx1, hy0, hy1⟩ := hin
  rw [hl, hs]
  have hw : 0 < p.Rect.Max.X - p.Rect.Min.X := by omega
  have hA : 0 ≤ (y - p.Rect.Min.Y) * (p.Rect.Max.X - p.Rect.Min.X) :=
    Int.mul_nonneg (by omega) (le_of_lt hw)
  have hB : (y - p.Rect.Min.Y) * (p.Rect.Max.X - p.Rect.Min.X)
      ≤ (p.Rect.Max.Y - p.Rect.Min.Y - 1) * (p.Rect.Max.X - p.Rect.Min.X) :=
    Int.mul_le_mul_of_nonneg_right (by omega) (le_of_lt hw)
  constructor
  · nlinarith
  · nlinarith

theorem Allocated_length_lt (p : RGB48Image) (hp : p.Allocated) :
    (p.Pix.length : Int) < 9223372036854775808 := by
  have := maxAlloc_lt
  have := hp.1.2.2.2
  have := hp.2.2
  omega

/-- The offset of a point of the rectangle lies in the buffer, with the five
bytes after it. -/
theorem PixOffset_bounds (p : RGB48Image) (hp : p.Allocated) (x y : Int)
    (hin : Point.In ⟨x, y⟩ p.Rect = true) :
    0 ≤ p.PixOffset x y ∧ p.PixOffset x y + 5 < p.Pix.length := by
  obtain ⟨h0, h1⟩ := exact_offset_bounds p hp x y hin
  have h63 := Allocated_length_lt p hp
  rw [PixOffset_eq, wrapInt_of_range _ (by omega) (by omega)]
  exact ⟨h0, h1⟩

theorem Intersect_empty (r s : Rectangle) (h : (r.Intersect s).Empty = true) :
    r.Intersect s = ZR := by
  unfold Rectangle.Intersect at h ⊢
  by_cases hc : (r.clip s).Empty = true
  · rw [if_pos hc]
  · rw [if_neg hc] at h
    exact absurd h hc

theorem Intersect_nonempty (r s : Rectangle) (h : (r.Intersect s).Empty = false) :
    s.Min.X ≤ (r.Intersect s).Min.X ∧ (r.Intersect s).Max.X ≤ s.Max.X
    ∧ s.Min.Y ≤ (r.Intersect s).Min.Y ∧ (r.Intersect s).Max.Y ≤ s.Max.Y := by
  unfold Rectangle.Intersect at h ⊢
  by_cases hc : (r.clip s).Empty = true
  · rw [if_pos hc] at h
    simp [Rectangle.Empty, ZR] at h
  · rw [if_neg hc]
    simp only [Rectangle.clip]
    refine ⟨?_, ?_, ?_, ?_⟩ <;> split <;> omega

theorem readAt_drop (pix : List Byte) (n : Nat) (j : Int) (hj : 0 ≤ j) :
    readAt (pix.drop n) j = readAt pix ((n : Int) + j) := by
  have h2 : 0 ≤ (n : Int) + j := by omega
  have h3 : ((n : Int) + j).toNat = n + j.toNat := by omega
  simp only [readAt, hj, h2, if_true, List.getElem?_drop, h3]

/-- Reading a pixel through a view that starts `n` bytes into the buffer, at
a non-negative offset `j`, is reading the buffer at `n + j`. -/
theorem reads_drop (pix : List Byte) (n : Nat) (j P : Int) (hj : 0 ≤ j) (hP : P = n + j) :
    ∀ k : Int, 0 ≤ k → readAt (pix.drop n) (j + k) = readAt pix (P + k) := by
  intro k hk
  rw [readAt_drop pix n (j + k) (by omega), hP]
  congr 1
  omega

theorem readAt_some (pix : List Byte) (i : Int) (h0 : 0 ≤ i) (h1 : i < pix.length) :
    ∃ b, readAt pix i = some b := by
  have h : i.toNat < pix.length := by omega
  exact ⟨pix[i.toNat], by simp [readAt, h0, List.getElem?_eq_getElem h]⟩

/-- What `At` and `RGB48At` return at a point of the rectangle, from the six
bytes at its offset. -/
theorem readers_of_bytes (p : RGB48Image) (x y : Int) (hin : Point.In ⟨x, y⟩ p.Rect = true)
    (h0 : 0 ≤ p.PixOffset x y) (h63 : p.PixOffset x y + 5 < 9223372036854775808)
    (b0 b1 b2 b3 b4 b5 : Byte)
    (r0 : readAt p.Pix (p.PixOffset x y + 0) = some b0)
    (r1 : readAt p.Pix (p.PixOffset x y + 1) = some b1)
    (r2 : readAt p.Pix (p.PixOffset x y + 2) = some b2)
    (r3 : readAt p.Pix (p.PixOffset x y + 3) = some b3)
    (r4 : readAt p.Pix (p.PixOffset x y + 4) = some b4)
    (r5 : readAt p.Pix (p.PixOffset x y + 5) = some b5) :
    p.At x y = some (join16 b0 b1, join16 b2 b3, join16 b4 b5, 0xffff)
    ∧ p.RGB48At x y = some (join16 b0 b1, join16 b2 b3, join16 b4 b5) := by
  have e : ∀ k : Int, 0 ≤ k → k ≤ 5 → addInt (p.PixOffset x y) k = p.PixOffset x y + k :=
    fun k hk0 hk5 => wrapInt_of_range _ (by omega) (by omega)
  constructor
  · simp only [RGB48Image.At, hin, Bool.not_true, Bool.false_eq_true, if_false,
      e 0 (by omega) (by omega), e 1 (by omega) (by omega), e 2 (by omega) (by omega),
      e 3 (by omega) (by omega), e 4 (by omega) (by omega), e 5 (by omega) (by omega)]
    rw [r0, r1, r2, r3, r4, r5]
    rfl
  · simp only [RGB48Image.RGB48At, hin, Bool.not_true, Bool.false_eq_true, if_false,
      e 0 (by omega) (by omega), e 1 (by omega) (by omega), e 2 (by omega) (by omega),
      e 3 (by omega) (by omega), e 4 (by omega) (by omega), e 5 (by omega) (by omega)]
    rw [r0, r1, r2, r3, r4, r5]
    rfl

/-- On an allocated image both readers return at every point of the
rectangle. -/
theorem readers_some (p : RGB48Image) (hp : p.Allocated) (x y : Int)
    (hin : Point.In ⟨x, y⟩ p.Rect = true) :
    (∃ v, p.At x y = some v) ∧ (∃ v, p.RGB48At x y = some v) := by
  obtain ⟨h0, h1⟩ := PixOffset_bounds p hp x y hin
  obtain ⟨b0, r0⟩ := readAt_some p.Pix (p.PixOffset x y + 0) (by omega) (by omega)
  obtain ⟨b1, r1⟩ := readAt_some p.Pix (p.PixOffset x y + 1) (by omega) (by omega)
  obtain ⟨b2, r2⟩ := readAt_some p.Pix (p.PixOffset x y + 2) (by omega) (by omega)
  obtain ⟨b3, r3⟩ := readAt_some p.Pix (p.PixOffset x y + 3) (by omega) (by omega)
  obtain ⟨b4, r4⟩ := readAt_some p.Pix (p.PixOffset x y + 4) (by omega) (by omega)
  obtain ⟨b5, r5⟩ := readAt_some p.Pix (p.PixOffset x y + 5) (by omega) (by omega)
  have h63 := Allocated_length_lt p hp
  obtain ⟨e1, e2⟩ := readers_of_bytes p x y hin h0 (by omega) b0 b1 b2 b3 b4 b5
    r0 r1 r2 r3 r4 r5
  exact ⟨⟨_, e1⟩, ⟨_, e2⟩⟩

theorem SetRGB48_eq (p : RGB48Image) (x y : Int) (c : Nat × Nat × Nat) (pix' : List Byte)
    (hin : Point.In ⟨x, y⟩ p.Rect = true)
    (hs : store48 p.Pix (p.PixOffset x y) c.1 c.2.1 c.2.2 = some pix') :
    p.SetRGB48 x y c = some ⟨pix', p.Stride, p.Rect⟩ := by
  simp only [RGB48Image.SetRGB48, hin, Bool.not_true, Bool.false_eq_true, if_false, hs,
    Option.map_some']

theorem Set_eq (p : RGB48Image) (x y : Int) (c : ColorValue) (cr cg cb ca : Nat)
    (pix' : List Byte) (hin : Point.In ⟨x, y⟩ p.Rect = true)
    (hc : c.RGBA = some (cr, cg, cb, ca))
    (hs : store48 p.Pix (p.PixOffset x y) (cr % 2 ^ 16) (cg % 2 ^ 16) (cb % 2 ^ 16) = some pix') :
    p.Set x y c = some ⟨pix', p.Stride, p.Rect⟩ := by
  simp only [RGB48Image.Set, hin, Bool.not_true, Bool.false_eq_true, if_false, hc]
  show (store48 p.Pix (p.PixOffset x y) (cr % 2 ^ 16) (cg % 2 ^ 16) (cb % 2 ^ 16)).bind _ = _
  rw [hs]
  rfl

/-- On an allocated image and a point of its rectangle, `SetRGB48` succeeds
and the two readers return what was stored. -/
theorem SetRGB48_read_back (p : RGB48Image) (hp : p.Allocated) (x y : Int) (c0 c1 c2 : Nat)
    (hin : Point.In ⟨x, y⟩ p.Rect = true) (h0 : c0 ≤ 0xFFFF) (h1 : c1 ≤ 0xFFFF)
    (h2 : c2 ≤ 0xFFFF) :
    ∃ p', p.SetRGB48 x y (c0, c1, c2) = some p' ∧ p'.Allocated ∧ p'.Rect = p.Rect
      ∧ p'.RGB48At x y = some (c0, c1, c2) ∧ p'.At x y = some (c0, c1, c2, 0xFFFF) := by
  obtain ⟨b0, b1⟩ := PixOffset_bounds p hp x y hin
  have h63 := Allocated_length_lt p hp
  obtain ⟨pix', hs, hl, r0, r1, r2, r3, r4, r5, _⟩ :=
    store48_spec p.Pix (p.PixOffset x y) c0 c1 c2 b0 b1 h63
  have hoff : RGB48Image.PixOffset ⟨pix', p.Stride, p.Rect⟩ x y = p.PixOffset x y := rfl
  obtain ⟨e1, e2⟩ := readers_of_bytes ⟨pix', p.Stride, p.Rect⟩ x y hin
    (by rw [hoff]; exact b0) (by rw [hoff]; omega) _ _ _ _ _ _ r0 r1 r2 r3 r4 r5
  rw [join16_split c0 h0, join16_split c1 h1, join16_split c2 h2] at e1 e2
  refine ⟨⟨pix', p.Stride, p.Rect⟩, SetRGB48_eq p x y (c0, c1, c2) pix' hin hs,
    ⟨hp.1, hp.2.1, ?_⟩, rfl, e2, e1⟩
  rw [show (RGB48Image.mk pix' p.Stride p.Rect).Pix = pix' from rfl, hl]
  exact hp.2.2

/-- Row and column distances within the rectangle give an offset between 0
and the offset of the far corner. -/
theorem offset_le_corner (a H b W S : Int) (ha0 : 0 ≤ a) (haH : a ≤ H) (hb0 : 0 ≤ b)
    (hbW : b ≤ W) (hS : 0 ≤ S) : 0 ≤ a * S + b * 3 ∧ a * S + b * 3 ≤ H * S + W * 3 := by
  have h1 : 0 ≤ a * S := Int.mul_nonneg ha0 hS
  have h2 : a * S ≤ H * S := Int.mul_le_mul_of_nonneg_right haH hS
  omega

/-- An image with the allocated shape computes its offsets without
overflow. -/
theorem Allocated_OffsetsFit (p : RGB48Image) (hp : p.Allocated) : p.OffsetsFit := by
  obtain ⟨⟨hx, hy, hw, hsz⟩, hs, hl⟩ := hp
  have hlt := maxAlloc_lt
  have hm : maxAlloc = 281474976710656 := rfl
  refine ⟨by omega, ?_⟩
  rw [hs]
  have e : (p.Rect.Max.Y - p.Rect.Min.Y) * (6 * (p.Rect.Max.X - p.Rect.Min.X))
      = 6 * (p.Rect.Max.X - p.Rect.Min.X) * (p.Rect.Max.Y - p.Rect.Min.Y) := by ring
  rw [e]
  omega

/-- With offsets that fit, the sub-image over a non-empty `r ∩ p.Rect` reads,
at a point of it, the bytes the image itself reads there. -/
theorem SubImage_reads (p : RGB48Image) (s : Rectangle) (hf : p.OffsetsFit)
    (b1 : p.Rect.Min.X ≤ s.Min.X) (b2 : s.Max.X ≤ p.Rect.Max.X)
    (b3 : p.Rect.Min.Y ≤ s.Min.Y) (b4 : s.Max.Y ≤ p.Rect.Max.Y)
    (hi : 0 ≤ p.PixOffset s.Min.X s.Min.Y) (x y : Int) (hin : Point.In ⟨x, y⟩ s = true) :
    RGB48Image.At ⟨p.Pix.drop (p.PixOffset s.Min.X s.Min.Y).toNat, p.Stride, s⟩ x y = p.At x y
    ∧ RGB48Image.RGB48At ⟨p.Pix.drop (p.PixOffset s.Min.X s.Min.Y).toNat, p.Stride, s⟩ x y
        = p.RGB48At x y := by
  obtain ⟨hs, hfit⟩ := hf
  have hin' := (In_iff x y _).mp hin
  have hinp : Point.In ⟨x, y⟩ p.Rect = true := (In_iff x y _).mpr (by omega)
  obtain ⟨i0, i1⟩ := offset_le_corner (s.Min.Y - p.Rect.Min.Y) (p.Rect.Max.Y - p.Rect.Min.Y)
    (s.Min.X - p.Rect.Min.X) (p.Rect.Max.X - p.Rect.Min.X) p.Stride (by omega) (by omega)
    (by omega) (by omega) hs
  obtain ⟨j0, j1⟩ := offset_le_corner (y - s.Min.Y) (p.Rect.Max.Y - p.Rect.Min.Y)
    (x - s.Min.X) (p.Rect.Max.X - p.Rect.Min.X) p.Stride (by omega) (by omega)
    (by omega) (by omega) hs
  obtain ⟨P0, P1⟩ := offset_le_corner (y - p.Rect.Min.Y) (p.Rect.Max.Y - p.Rect.Min.Y)
    (x - p.Rect.Min.X) (p.Rect.Max.X - p.Rect.Min.X) p.Stride (by omega) (by omega)
    (by omega) (by omega) hs
  have ei : p.PixOffset s.Min.X s.Min.Y
      = (s.Min.Y - p.Rect.Min.Y) * p.Stride + (s.Min.X - p.Rect.Min.X) * 3 := by
    rw [PixOffset_eq]
    exact wrapInt_of_range _ (by omega) (by omega)
  have eP : p.PixOffset x y = (y - p.Rect.Min.Y) * p.Stride + (x - p.Rect.Min.X) * 3 := by
    rw [PixOffset_eq]
    exact wrapInt_of_range _ (by omega) (by omega)
  have ej : RGB48Image.PixOffset
        ⟨p.Pix.drop (p.PixOffset s.Min.X s.Min.Y).toNat, p.Stride, s⟩ x y
      = (y - s.Min.Y) * p.Stride + (x - s.Min.X) * 3 := by
    rw [PixOffset_eq]
    show wrapInt ((y - s.Min.Y) * p.Stride + (x - s.Min.X) * 3) = _
    exact wrapInt_of_range _ (by omega) (by omega)
  have hsum : (y - p.Rect.Min.Y) * p.Stride + (x - p.Rect.Min.X) * 3
      = ((s.Min.Y - p.Rect.Min.Y) * p.Stride + (s.Min.X - p.Rect.Min.X) * 3)
        + ((y - s.Min.Y) * p.Stride + (x - s.Min.X) * 3) := by ring
  have e : ∀ k : Int, 0 ≤ k → k ≤ 5 →
      readAt (p.Pix.drop (p.PixOffset s.Min.X s.Min.Y).toNat)
          (addInt ((y - s.Min.Y) * p.Stride + (x - s.Min.X) * 3) k)
        = readAt p.Pix (addInt ((y - p.Rect.Min.Y) * p.Stride + (x - p.Rect.Min.X) * 3) k) := by
    intro k hk0 hk5
    have a1 : addInt ((y - s.Min.Y) * p.Stride + (x - s.Min.X) * 3) k
        = (y - s.Min.Y) * p.Stride + (x - s.Min.X) * 3 + k :=
      wrapInt_of_range _ (by omega) (by omega)
    have a2 : addInt ((y - p.Rect.Min.Y) * p.Stride + (x - p.Rect.Min.X) * 3) k
        = (y - p.Rect.Min.Y) * p.Stride + (x - p.Rect.Min.X) * 3 + k :=
      wrapInt_of_range _ (by omega) (by omega)
    rw [a1, a2, readAt_drop _ _ _ (by omega), Int.toNat_of_nonneg hi, ei, hsum]
    congr 1
    omega
  constructor
  · simp only [RGB48Image.At, hin, hinp, Bool.not_true, Bool.false_eq_true, if_false, ej, eP,
      e 0 (by omega) (by omega), e 1 (by omega) (by omega), e 2 (by omega) (by omega),
      e 3 (by omega) (by omega), e 4 (by omega) (by omega), e 5 (by omega) (by omega)]
  · simp only [RGB48Image.RGB48At, hin, hinp, Bool.not_true, Bool.false_eq_true, if_false, ej,
      eP, e 0 (by omega) (by omega), e 1 (by omega) (by omega), e 2 (by omega) (by omega),
      e 3 (by omega) (by omega), e 4 (by omega) (by omega), e 5 (by omega) (by omega)]

/-- The size `NewRGB48Image` computes is the exact `6 * w * h` whenever that is
a size `make` accepts, and then it returns. -/
theorem NewRGB48Image_size (r : Rectangle) (hx : r.Min.X ≤ r.Max.X) (hy : r.Min.Y ≤ r.Max.Y)
    (hsize : 6 * (r.Max.X - r.Min.X) * (r.Max.Y - r.Min.Y) ≤ maxAlloc) :
    mulInt (mulInt 6 r.Dx) r.Dy = 6 * (r.Max.X - r.Min.X) * (r.Max.Y - r.Min.Y)
    ∧ NewRGB48Image r
      = some ⟨List.replicate (6 * (r.Max.X - r.Min.X) * (r.Max.Y - r.Min.Y)).toNat 0,
          mulInt 6 r.Dx, r⟩ := by
  have hlt := maxAlloc_lt
  have h0 : 0 ≤ 6 * (r.Max.X - r.Min.X) * (r.Max.Y - r.Min.Y) :=
    Int.mul_nonneg (by omega) (by omega)
  have e : mulInt (mulInt 6 r.Dx) r.Dy
      = 6 * (r.Max.X - r.Min.X) * (r.Max.Y - r.Min.Y) := by
    unfold mulInt Rectangle.Dx Rectangle.Dy subInt
    rw [wrapInt_congr (Int.ModEq.mul
      ((wrapInt_modEq _).trans (Int.ModEq.mul_left _ (wrapInt_modEq _))) (wrapInt_modEq _))]
    exact wrapInt_of_range _ (by omega) (by omega)
  refine ⟨e, ?_⟩
  unfold NewRGB48Image
  rw [e, makePix_some _ h0 hsize]
  rfl

/-- A rectangle with a point and a size within the allocation limit is
allocatable. -/
theorem Allocatable_of_point (r : Rectangle)
    (hsize : 6 * (r.Max.X - r.Min.X) * (r.Max.Y - r.Min.Y) ≤ maxAlloc) (x y : Int)
    (hin : Point.In ⟨x, y⟩ r = true) : r.Allocatable := by
  rw [In_iff] at hin
  obtain ⟨hx0, hx1, hy0, hy1⟩ := hin
  have h1 : 6 * (r.Max.X - r.Min.X) * 1 ≤ 6 * (r.Max.X - r.Min.X) * (r.Max.Y - r.Min.Y) :=
    Int.mul_le_mul_of_nonneg_left (by omega) (by omega)
  exact ⟨by omega, by omega, by omega, hsize⟩

/-! ## The claims -/

/-- Claim C1, as amended: for every 4-channel uint8 `Color` with bytes
`[r, g, b, a]`, `RGBA()` returns each byte widened to 16 bits by replication,
`(r*0x101, g*0x101, b*0x101, a*0x101)`: the bytes go through `color.RGBA`, which
takes them as already premultiplied, and no multiplication by alpha takes
place. -/
theorem Color_RGBA_four_uint8_widened (r g b a : Byte) :
    Color.RGBA ⟨4, reflect.Uint8, [r, g, b, a]⟩
      = some (r.val * 0x101, g.val * 0x101, b.val * 0x101, a.val * 0x101) := by
  simp [Color.RGBA, RGBA8RGBA, widen8_byte]

/-- Claim C1 fails as stated: for the bytes `[0x80, 0x40, 0x20, 0x80]` the
result is exactly the widened quadruple `(0x8080, 0x4040, 0x2020, 0x8080)` and
not the alpha-scaled `v * 0x101 * a / 0xFF` values. -/
theorem Color_RGBA_four_uint8_not_alpha_scaled :
    Color.RGBA ⟨4, reflect.Uint8, [0x80, 0x40, 0x20, 0x80]⟩
      = some (0x8080, 0x4040, 0x2020, 0x8080)
    ∧ ¬ (Color.RGBA ⟨4, reflect.Uint8, [0x80, 0x40, 0x20, 0x80]⟩
      = some ((0x80 * 0x101) * 0x80 / 0xFF, (0x40 * 0x101) * 0x80 / 0xFF,
          (0x20 * 0x101) * 0x80 / 0xFF, 0x80 * 0x101)) := by
  decide

/-- Claim C2, as amended: for every 3-channel uint16 `Color` X with 16-bit
channel values `x0, x1, x2` (big-endian byte pairs), `colorModelConvert(3,
uint8, X)` returns a colour Y whose byte `i` is `x_i` narrowed to uint8 without
any scaling (`x_i mod 256`); so `Y.RGBA()` is `((x_i mod 256) * 0x101, 0xFFFF)`
while `X.RGBA()` is `(x0, x1, x2, 0xFFFF)`: the alphas are equal, the colour
components are not within 255 of each other in general. -/
theorem convert_uint16_to_uint8_expansion (a0 a1 b0 b1 c0 c1 : Byte) :
    ∃ y, colorModelConvert 3 reflect.Uint8
          (.generic ⟨3, reflect.Uint16, [a0, a1, b0, b1, c0, c1]⟩) = some y
      ∧ PixSilce.Uint16s [a0, a1, b0, b1, c0, c1]
          = [a0.val * 256 + a1.val, b0.val * 256 + b1.val, c0.val * 256 + c1.val]
      ∧ y.Pix.map Fin.val = [(a0.val * 256 + a1.val) % 256, (b0.val * 256 + b1.val) % 256,
          (c0.val * 256 + c1.val) % 256]
      ∧ y.RGBA = some ((a0.val * 256 + a1.val) % 256 * 0x101,
          (b0.val * 256 + b1.val) % 256 * 0x101, (c0.val * 256 + c1.val) % 256 * 0x101, 0xFFFF)
      ∧ Color.RGBA ⟨3, reflect.Uint16, [a0, a1, b0, b1, c0, c1]⟩
          = some (a0.val * 256 + a1.val, b0.val * 256 + b1.val, c0.val * 256 + c1.val, 0xFFFF) := by
  refine ⟨_, convert_u16_to_u8 a0 a1 b0 b1 c0 c1, rfl, rfl, ?_, ?_⟩
  · simp [Color.RGBA, RGBA8RGBA, widen8_byte, toByte]
    decide
  · simp [Color.RGBA, RGBA64RGBA, PixSilce.Uint16s]

/-- Claim C2 fails as stated: the 3-channel uint16 colour with channel values
`(0x00FF, 0, 0)` converts to the uint8 colour `[0xFF, 0, 0]`, whose red
expands to `0xFFFF` against `0x00FF` for the original, a difference of 65280. -/
theorem convert_uint16_to_uint8_error_exceeds_255 :
    (colorModelConvert 3 reflect.Uint8
        (.generic ⟨3, reflect.Uint16, [0x00, 0xFF, 0, 0, 0, 0]⟩)).bind Color.RGBA
      = some (0xFFFF, 0, 0, 0xFFFF)
    ∧ Color.RGBA ⟨3, reflect.Uint16, [0x00, 0xFF, 0, 0, 0, 0]⟩ = some (0x00FF, 0, 0, 0xFFFF)
    ∧ ¬ (0xFFFF - 0x00FF ≤ 255) := by
  decide

/-- Claim C3: for every colour X, converting the result of
`colorModelConvert(3, uint8, X)` once more with `colorModelConvert(3, uint8, ·)`
gives the same colour (same channels, kind and bytes; a panic of the first
call is the panic of the whole); a returned colour has 3 channels of kind
uint8 in a 3-byte buffer, and the call returns for every colour of another
type and every well-formed `Color`. -/
theorem colorModelConvert_three_uint8_idempotent (X : ColorValue) :
    (colorModelConvert 3 reflect.Uint8 X).bind
        (fun z => colorModelConvert 3 reflect.Uint8 (.generic z))
      = colorModelConvert 3 reflect.Uint8 X
    ∧ (∀ z, colorModelConvert 3 reflect.Uint8 X = some z →
        z.Channels = 3 ∧ z.DataType = reflect.Uint8 ∧ z.Pix.length = 3)
    ∧ (X.WellFormed → ∃ z, colorModelConvert 3 reflect.Uint8 X = some z) := by
  have hshape : ∀ z, colorModelConvert 3 reflect.Uint8 X = some z →
      z.Channels = 3 ∧ z.DataType = reflect.Uint8 ∧ z.Pix.length = 3 := by
    intro z hz
    obtain ⟨h1, h2, h3⟩ := colorModelConvert_shape hz
    refine ⟨h1, h2, ?_⟩
    have e : mulInt 3 (SizeofKind reflect.Uint8) = 3 := by decide
    rw [e] at h3
    exact_mod_cast h3
  refine ⟨?_, hshape, ?_⟩
  · cases hz : colorModelConvert 3 reflect.Uint8 X with
    | none => rfl
    | some z =>
      obtain ⟨h1, h2, h3⟩ := hshape z hz
      obtain ⟨ch, k, pix⟩ := z
      simp only at h1 h2 h3
      subst h1 h2
      simp only [Option.some_bind]
      have hm : makePix (mulInt 3 (SizeofKind reflect.Uint8)) = some [0, 0, 0] := by decide
      have hcp : copyPix [0, 0, 0] pix = pix := copyPix_same_length _ _ (by simp [h3])
      unfold colorModelConvert
      rw [hm]
      simp [hcp]
  · intro hw
    exact colorModelConvert_some 3 reflect.Uint8 X (by decide) (by decide) (by decide) hw

/-- Witness for claim C3: a well-formed 3-channel uint16 colour is converted. -/
theorem colorModelConvert_three_uint8_idempotent_witness :
    ColorValue.WellFormed (.generic ⟨3, reflect.Uint16, [1, 2, 3, 4, 5, 6]⟩)
    ∧ ∃ z, colorModelConvert 3 reflect.Uint8
        (.generic ⟨3, reflect.Uint16, [1, 2, 3, 4, 5, 6]⟩) = some z :=
  have hw : ColorValue.WellFormed (.generic ⟨3, reflect.Uint16, [1, 2, 3, 4, 5, 6]⟩) :=
    ⟨by decide, by decide⟩
  ⟨hw, (colorModelConvert_three_uint8_idempotent _).2.2 hw⟩

/-- Claim C4: for every byte `v`, `colorModelConvert(1, uint16, ·)` of the
1-channel uint8 colour `[v]` is the result of the per-channel remap loop, a
1-channel uint16 colour with a 2-byte buffer whose channel 0, read as uint16
(through `Uint16s` or through `Value`), is `v` itself. -/
theorem convert_gray8_to_gray16_keeps_value (v : Byte) :
    colorModelConvert 1 reflect.Uint16 (.generic ⟨1, reflect.Uint8, [v]⟩)
      = (remapChannels ⟨1, reflect.Uint8, [v]⟩ reflect.Uint16 1 [0, 0]).map
          (fun p => ⟨1, reflect.Uint16, p⟩)
    ∧ ∃ z, colorModelConvert 1 reflect.Uint16 (.generic ⟨1, reflect.Uint8, [v]⟩) = some z
      ∧ z.Channels = 1 ∧ z.DataType = reflect.Uint16 ∧ z.Pix.length = 2
      ∧ z.Pix.Uint16s = [v.val]
      ∧ z.Pix.Value 0 reflect.Uint16 = some (Float64.ofInt v.val) := by
  have hm : makePix (mulInt 1 (SizeofKind reflect.Uint16)) = some [0, 0] := by decide
  have hv : v.val / 256 = 0 := by omega
  have hv2 : v.val % 65536 = v.val := by omega
  have hconv : colorModelConvert 1 reflect.Uint16 (.generic ⟨1, reflect.Uint8, [v]⟩)
      = some ⟨1, reflect.Uint16, [0, v]⟩ := by
    unfold colorModelConvert
    rw [hm]
    simp [remapChannels, List.range_succ, PixSilce.Value, PixSilce.elem,
      SizeofKind, beDecode, PixSilce.SetValue, encodeValue, beEncode, PixSilce.setElem,
      toBitsInt_byte, hv2, toByte_val, toByte_zero, hv]
  refine ⟨?_, _, hconv, rfl, rfl, rfl, ?_, ?_⟩
  · rw [hconv]
    simp [remapChannels, List.range_succ, PixSilce.Value, PixSilce.elem,
      SizeofKind, beDecode, PixSilce.SetValue, encodeValue, beEncode, PixSilce.setElem,
      toBitsInt_byte, hv2, toByte_val, toByte_zero, hv]
  · simp [PixSilce.Uint16s]
  · simp [PixSilce.Value, PixSilce.elem, SizeofKind, beDecode]

/-- Claim C5, as amended: for every `Color` S and target `(channels,
elementType)` with `channels >= 0`, a buffer size `channels *
SizeofKind(elementType)` of at most `maxAlloc` (so that the `int` product does
not overflow and `make` accepts it), the kind of S equal to `elementType` and a
different channel count, `colorModelConvert` returns a colour of the target
shape whose buffer has `channels * SizeofKind(elementType)` bytes: the first
`min(len(S.Pix), n)` are those of `S.Pix`, the rest are zero (the buffer is the
raw `copy` of `S.Pix` onto the zeroed allocation). -/
theorem convert_same_kind_raw_copy (S : Color) (channels : Int) (elementType : Kind)
    (hc : 0 ≤ channels) (hsize : channels * SizeofKind elementType ≤ maxAlloc)
    (ht : S.DataType = elementType) (hn : S.Channels ≠ channels) :
    ∃ z, colorModelConvert channels elementType (.generic S) = some z
      ∧ z.Channels = channels ∧ z.DataType = elementType
      ∧ (z.Pix.length : Int) = channels * SizeofKind elementType
      ∧ z.Pix.take (min S.Pix.length z.Pix.length) = S.Pix.take (min S.Pix.length z.Pix.length)
      ∧ (∀ i, min S.Pix.length z.Pix.length ≤ i → i < z.Pix.length → z.Pix[i]? = some 0)
      ∧ z.Pix = copyPix (List.replicate (channels * SizeofKind elementType).toNat 0) S.Pix := by
  have hsz : 0 ≤ channels * SizeofKind elementType := Int.mul_nonneg hc (SizeofKind_nonneg _)
  have hm : makePix (mulInt channels (SizeofKind elementType))
      = some (List.replicate (channels * SizeofKind elementType).toNat 0) := by
    rw [mulInt_of_size _ _ hsz hsize]
    exact makePix_some _ hsz hsize
  generalize hN : (channels * SizeofKind elementType).toNat = n at hm
  refine ⟨⟨channels, elementType, copyPix (List.replicate n 0) S.Pix⟩, ?_, rfl, rfl, ?_, ?_, ?_, rfl⟩
  · unfold colorModelConvert
    rw [hm]
    simp [hn, ht]
  · simp only [copyPix_length, List.length_replicate]
    omega
  · simp only [copyPix_length, List.length_replicate]
    simp only [copyPix, List.length_replicate]
    rw [List.take_append_of_le_length (by simp only [List.length_take]; omega)]
    rw [List.take_take]
    congr 1
    omega
  · intro i h1 h2
    simp only [copyPix_length, List.length_replicate] at h1 h2
    simp only [copyPix, List.length_replicate]
    have hlt : S.Pix.length ≤ i := by omega
    rw [List.getElem?_append_right (by simp only [List.length_take]; omega)]
    simp only [List.length_take, List.drop_replicate]
    rw [List.getElem?_replicate]
    simp
    omega

/-- Witness for claim C5: a 3-channel uint8 colour converted to 5 channels of
uint8 keeps its three bytes and is padded with two zero bytes. -/
theorem convert_same_kind_raw_copy_witness :
    colorModelConvert 5 reflect.Uint8 (.generic ⟨3, reflect.Uint8, [1, 2, 3]⟩)
      = some ⟨5, reflect.Uint8, [1, 2, 3, 0, 0]⟩
    ∧ ∃ z, colorModelConvert 5 reflect.Uint8 (.generic ⟨3, reflect.Uint8, [1, 2, 3]⟩) = some z
      ∧ z.Channels = 5 ∧ z.DataType = reflect.Uint8
      ∧ (z.Pix.length : Int) = 5 * SizeofKind reflect.Uint8
      ∧ z.Pix.take (min [(1 : Byte), 2, 3].length z.Pix.length)
          = [(1 : Byte), 2, 3].take (min [(1 : Byte), 2, 3].length z.Pix.length)
      ∧ (∀ i, min [(1 : Byte), 2, 3].length z.Pix.length ≤ i → i < z.Pix.length →
          z.Pix[i]? = some 0)
      ∧ z.Pix = copyPix (List.replicate (5 * SizeofKind reflect.Uint8).toNat 0) [1, 2, 3] :=
  ⟨by decide,
    convert_same_kind_raw_copy ⟨3, reflect.Uint8, [1, 2, 3]⟩ 5 reflect.Uint8
      (by decide) (by decide) rfl (by decide)⟩

/-- Claim C5 fails as stated for channel counts whose buffer size overflows
`int`: with `channels = 2^61` and kind uint32 the product wraps to `-2^63` and
`make` panics; with `channels = 2^62 + 1` it wraps to 4 and the buffer has 4
bytes. -/
theorem convert_same_kind_size_overflow :
    colorModelConvert 2305843009213693952 reflect.Uint32
        (.generic ⟨1, reflect.Uint32, [1, 2, 3, 4]⟩) = none
    ∧ colorModelConvert 4611686018427387905 reflect.Uint32
        (.generic ⟨1, reflect.Uint32, [1, 2, 3, 4]⟩)
      = some ⟨4611686018427387905, reflect.Uint32, [1, 2, 3, 4]⟩ := by
  decide

/-- Claim C6: for every byte `v`, the 1-channel uint8 colour `[v]` expands to
`R = G = B = v * 0x101` and `A = 0xFFFF`. -/
theorem Color_RGBA_gray8 (v : Byte) :
    Color.RGBA ⟨1, reflect.Uint8, [v]⟩
      = some (v.val * 0x101, v.val * 0x101, v.val * 0x101, 0xFFFF)
    ∧ Color.RGBA ⟨1, reflect.Uint8, [0x80]⟩ = some (0x8080, 0x8080, 0x8080, 0xFFFF) :=
  ⟨RGBA_1_u8 v, by decide⟩

/-- Claim C7: `RGBA()` returns `(0, 0, 0, 0)`, without a panic, whenever the
buffer is empty or the channel count is none of 1, 2, 3, 4, whatever the kind
and the buffer contents. -/
theorem Color_RGBA_zero_quadruple (c : Color)
    (h : c.Pix = [] ∨ (c.Channels ≠ 1 ∧ c.Channels ≠ 2 ∧ c.Channels ≠ 3 ∧ c.Channels ≠ 4)) :
    c.RGBA = some (0, 0, 0, 0) := by
  rcases h with h | ⟨h1, h2, h3, h4⟩
  · simp [Color.RGBA, h]
  · simp [Color.RGBA, h1, h2, h3, h4]

/-- Witness for claim C7: a colour with the channel count -1 and a non-empty
buffer. -/
theorem Color_RGBA_zero_quadruple_witness :
    Color.RGBA ⟨-1, reflect.Float32, [1, 2, 3]⟩ = some (0, 0, 0, 0) :=
  Color_RGBA_zero_quadruple ⟨-1, reflect.Float32, [1, 2, 3]⟩
    (Or.inr ⟨by decide, by decide, by decide, by decide⟩)

/-- Claim C8: for every `Color` with 1, 2 or 3 channels and a non-empty buffer
of exactly `Channels * SizeofKind(DataType)` bytes, `RGBA()` returns with alpha
`0xFFFF`; 3 channels of uint8 `[r, g, b]` give `(r*0x101, g*0x101, b*0x101,
0xFFFF)` and 2 channels of uint8 `[r, g]` give `(r*0x101, g*0x101, 0xFFFF,
0xFFFF)`. -/
theorem Color_RGBA_alpha_full :
    (∀ c : Color, (c.Channels = 1 ∨ c.Channels = 2 ∨ c.Channels = 3) →
        (c.Pix.length : Int) = c.Channels * SizeofKind c.DataType → 0 < c.Pix.length →
        ∃ r g b, c.RGBA = some (r, g, b, 0xFFFF))
    ∧ (∀ r g b : Byte, Color.RGBA ⟨3, reflect.Uint8, [r, g, b]⟩
        = some (r.val * 0x101, g.val * 0x101, b.val * 0x101, 0xFFFF))
    ∧ (∀ r g : Byte, Color.RGBA ⟨2, reflect.Uint8, [r, g]⟩
        = some (r.val * 0x101, g.val * 0x101, 0xFFFF, 0xFFFF)) := by
  refine ⟨?_, RGBA_3_u8, RGBA_2_u8⟩
  intro c hch hlen hpos
  obtain ⟨ch, k, pix⟩ := c
  simp only at hch hlen hpos
  have hne : pix.length ≠ 0 := by omega
  have hk : 0 < SizeofKind k := by
    by_contra hk
    have h0 : SizeofKind k = 0 := le_antisymm (not_lt.mp hk) (SizeofKind_nonneg k)
    rw [h0, mul_zero] at hlen
    omega
  by_cases h8 : k = reflect.Uint8
  · subst h8
    have hs : SizeofKind reflect.Uint8 = 1 := rfl
    rw [hs] at hlen
    rcases hch with rfl | rfl | rfl
    · obtain ⟨a, rfl⟩ := List.length_eq_one.mp (by omega : pix.length = 1)
      exact ⟨_, _, _, RGBA_1_u8 a⟩
    · obtain ⟨a, b, rfl⟩ := List.length_eq_two.mp (by omega : pix.length = 2)
      exact ⟨_, _, _, RGBA_2_u8 a b⟩
    · obtain ⟨a, b, c, rfl⟩ := List.length_eq_three.mp (by omega : pix.length = 3)
      exact ⟨_, _, _, RGBA_3_u8 a b c⟩
  · by_cases h9 : k = reflect.Uint16
    · subst h9
      have hs : SizeofKind reflect.Uint16 = 2 := rfl
      rw [hs] at hlen
      rcases hch with rfl | rfl | rfl
      · obtain ⟨a, b, rfl⟩ := List.length_eq_two.mp (by omega : pix.length = 2)
        exact ⟨a.val * 256 + b.val, a.val * 256 + b.val, a.val * 256 + b.val,
          by simp [Color.RGBA, Gray16RGBA, PixSilce.Uint16s]⟩
      · match pix, hlen with
        | [a, b, c, d], _ =>
          exact ⟨a.val * 256 + b.val, c.val * 256 + d.val, 0xFFFF,
            by simp [Color.RGBA, RGBA64RGBA, PixSilce.Uint16s]⟩
      · match pix, hlen with
        | [a, b, c, d, e, f], _ =>
          exact ⟨a.val * 256 + b.val, c.val * 256 + d.val, e.val * 256 + f.val,
            by simp [Color.RGBA, RGBA64RGBA, PixSilce.Uint16s]⟩
    · rcases hch with rfl | rfl | rfl
      · obtain ⟨v0, e0⟩ := Value_some pix 0 k hk (by omega)
        exact ⟨toUint16 v0, toUint16 v0, toUint16 v0,
          by simp [Color.RGBA, hne, h8, h9, e0, Gray16RGBA]⟩
      · obtain ⟨v0, e0⟩ := Value_some pix 0 k hk (by omega)
        obtain ⟨v1, e1⟩ := Value_some pix 1 k hk (by omega)
        exact ⟨toUint16 v0, toUint16 v1, 0xFFFF,
          by simp [Color.RGBA, hne, h8, h9, e0, e1, RGBA64RGBA]⟩
      · obtain ⟨v0, e0⟩ := Value_some pix 0 k hk (by omega)
        obtain ⟨v1, e1⟩ := Value_some pix 1 k hk (by omega)
        obtain ⟨v2, e2⟩ := Value_some pix 2 k hk (by omega)
        exact ⟨toUint16 v0, toUint16 v1, toUint16 v2,
          by simp [Color.RGBA, hne, h8, h9, e0, e1, e2, RGBA64RGBA]⟩

/-- Witness for claim C8: a 2-channel float32 colour with an 8-byte buffer. -/
theorem Color_RGBA_alpha_full_witness :
    ∃ r g b, Color.RGBA ⟨2, reflect.Float32, [0x3F, 0x80, 0, 0, 0x47, 0x7F, 0xFF, 0]⟩
      = some (r, g, b, 0xFFFF) :=
  Color_RGBA_alpha_full.1 ⟨2, reflect.Float32, [0x3F, 0x80, 0, 0, 0x47, 0x7F, 0xFF, 0]⟩
    (by decide) (by decide) (by decide)

/-- Claim C9: for a colour that is not a `Color`, with `RGBA()` results
`(r, g, b, a)`: the uint8 targets of 3 and 4 channels hold `(v >> 8) mod 256`
for each channel, the uint16 targets the byte pair `(v >> 8) mod 256`,
`v mod 256`, and with 3 channels the alpha has no influence on the result. -/
theorem convert_other_packs_channels (r g b a : Nat) :
    (∃ z, colorModelConvert 3 reflect.Uint8 (.other r g b a) = some z
        ∧ z.Pix.map Fin.val = [(r >>> 8) % 256, (g >>> 8) % 256, (b >>> 8) % 256])
    ∧ (∃ z, colorModelConvert 4 reflect.Uint8 (.other r g b a) = some z
        ∧ z.Pix.map Fin.val
          = [(r >>> 8) % 256, (g >>> 8) % 256, (b >>> 8) % 256, (a >>> 8) % 256])
    ∧ (∃ z, colorModelConvert 3 reflect.Uint16 (.other r g b a) = some z
        ∧ z.Pix.map Fin.val
          = [(r >>> 8) % 256, r % 256, (g >>> 8) % 256, g % 256, (b >>> 8) % 256, b % 256])
    ∧ (∃ z, colorModelConvert 4 reflect.Uint16 (.other r g b a) = some z
        ∧ z.Pix.map Fin.val
          = [(r >>> 8) % 256, r % 256, (g >>> 8) % 256, g % 256, (b >>> 8) % 256, b % 256,
              (a >>> 8) % 256, a % 256])
    ∧ (∀ a', colorModelConvert 3 reflect.Uint8 (.other r g b a')
        = colorModelConvert 3 reflect.Uint8 (.other r g b a))
    ∧ (∀ a', colorModelConvert 3 reflect.Uint16 (.other r g b a')
        = colorModelConvert 3 reflect.Uint16 (.other r g b a)) := by
  refine ⟨⟨_, convert_other_3_u8 r g b a, rfl⟩, ⟨_, convert_other_4_u8 r g b a, rfl⟩,
    ⟨_, convert_other_3_u16 r g b a, rfl⟩, ⟨_, convert_other_4_u16 r g b a, rfl⟩, ?_, ?_⟩
  · intro a'
    rw [convert_other_3_u8, convert_other_3_u8]
  · intro a'
    rw [convert_other_3_u16, convert_other_3_u16]

/-- Claim C10: `SizeofKind` is 1 for int8 and uint8, 2 for int16 and uint16, 4
for int32, uint32 and float32, 8 for int64, uint64, float64 and complex64, 16
for complex128 and 0 for every other kind tag, and `SizeofPixel(channels, t)`
is `channels * SizeofKind(t)`. -/
theorem SizeofKind_table :
    SizeofKind reflect.Int8 = 1 ∧ SizeofKind reflect.Uint8 = 1
    ∧ SizeofKind reflect.Int16 = 2 ∧ SizeofKind reflect.Uint16 = 2
    ∧ SizeofKind reflect.Int32 = 4 ∧ SizeofKind reflect.Uint32 = 4
    ∧ SizeofKind reflect.Float32 = 4
    ∧ SizeofKind reflect.Int64 = 8 ∧ SizeofKind reflect.Uint64 = 8
    ∧ SizeofKind reflect.Float64 = 8 ∧ SizeofKind reflect.Complex64 = 8
    ∧ SizeofKind reflect.Complex128 = 16
    ∧ (∀ k : Kind, k ∉ [reflect.Int8, reflect.Uint8, reflect.Int16, reflect.Uint16,
          reflect.Int32, reflect.Uint32, reflect.Float32, reflect.Int64, reflect.Uint64,
          reflect.Float64, reflect.Complex64, reflect.Complex128] → SizeofKind k = 0)
    ∧ (∀ (channels : Int) (t : Kind), SizeofPixel channels t = channels * SizeofKind t) := by
  refine ⟨rfl, rfl, rfl, rfl, rfl, rfl, rfl, rfl, rfl, rfl, rfl, rfl, ?_, fun _ _ => rfl⟩
  intro k hk
  simp only [List.mem_cons, List.mem_singleton, List.not_mem_nil, not_or, or_false] at hk
  obtain ⟨h1, h2, h3, h4, h5, h6, h7, h8, h9, h10, h11, h12⟩ := hk
  simp [SizeofKind, *]

/-- Claim C11: for every 1-channel uint16 `Color` with bytes `[hi, lo]`,
`RGBA()` decodes the pair big-endian and returns `R = G = B = hi*256 + lo`
and `A = 0xFFFF`; the 16-bit view of `[0x01, 0x02, 0x03, 0x04]` is
`[0x0102, 0x0304]`. -/
theorem Color_RGBA_gray16_big_endian (hi lo : Byte) :
    Color.RGBA ⟨1, reflect.Uint16, [hi, lo]⟩
      = some (hi.val * 256 + lo.val, hi.val * 256 + lo.val, hi.val * 256 + lo.val, 0xFFFF)
    ∧ PixSilce.Uint16s [0x01, 0x02, 0x03, 0x04] = [0x0102, 0x0304] := by
  refine ⟨?_, by decide⟩
  simp [Color.RGBA, Gray16RGBA, PixSilce.Uint16s]

/-- Claim C12: whatever path `colorModelConvert(channels, t, c)` takes, a
colour it returns has `Channels == channels`, `DataType == t` and
`len(Pix) == channels * SizeofKind(t)`, the product being the `int` product the
code computes (the exact product whenever that fits an `int`); and the call
does return for every non-negative channel count, every kind of the width
table and every well-formed source colour when the buffer size is at most
`maxAlloc`. -/
theorem colorModelConvert_result_shape (channels : Int) (t : Kind) (c : ColorValue) :
    (∀ z, colorModelConvert channels t c = some z →
      z.Channels = channels ∧ z.DataType = t
        ∧ (z.Pix.length : Int) = mulInt channels (SizeofKind t)
        ∧ (0 ≤ channels → channels * SizeofKind t < 9223372036854775808 →
            (z.Pix.length : Int) = channels * SizeofKind t))
    ∧ (0 ≤ channels → 0 < SizeofKind t → channels * SizeofKind t ≤ maxAlloc → c.WellFormed →
        ∃ z, colorModelConvert channels t c = some z) := by
  refine ⟨?_, colorModelConvert_some channels t c⟩
  intro z hz
  obtain ⟨h1, h2, h3⟩ := colorModelConvert_shape hz
  refine ⟨h1, h2, h3, ?_⟩
  intro hc hlt
  have h0 : 0 ≤ channels * SizeofKind t := Int.mul_nonneg hc (SizeofKind_nonneg t)
  rw [h3]
  exact wrapInt_of_range _ (by omega) hlt

/-- Witness for claim C12: the fallback path, two channels of float32 from a
colour of another type. -/
theorem colorModelConvert_result_shape_witness :
    ∃ z, colorModelConvert 2 reflect.Float32 (.other 0x1234 0x5678 0x9ABC 0xFFFF) = some z :=
  (colorModelConvert_result_shape 2 reflect.Float32 (.other 0x1234 0x5678 0x9ABC 0xFFFF)).2
    (by decide) (by decide) (by decide) trivial

/-- Claim C13, as amended: when `r ∩ p.Rect` is empty, `SubImage(r)` returns
the empty image (no pixels, bounds the zero rectangle, which is `r ∩ p.Rect`);
every image `SubImage(r)` returns has the bounds `r ∩ p.Rect` and, when the
offsets of `p` fit (`Stride >= 0` and the offset of the far corner of `p.Rect`
plus 5 does not overflow `int`), its `At` and `RGB48At` agree with those of `p`
at every point of `r ∩ p.Rect` (a panic of one being a panic of the other);
and for every image with the layout `NewRGB48Image` gives the offsets fit and
`SubImage` returns. -/
theorem SubImage_reads_same_pixels (p : RGB48Image) (r : Rectangle) :
    ((r.Intersect p.Rect).Empty = true →
        p.SubImage r = some ⟨[], 0, ZR⟩ ∧ r.Intersect p.Rect = ZR)
    ∧ (∀ q, p.SubImage r = some q →
        q.Rect = r.Intersect p.Rect
        ∧ (p.OffsetsFit → ∀ x y, Point.In ⟨x, y⟩ (r.Intersect p.Rect) = true →
            q.At x y = p.At x y ∧ q.RGB48At x y = p.RGB48At x y))
    ∧ (p.Allocated → p.OffsetsFit ∧ ∃ q, p.SubImage r = some q) := by
  refine ⟨?_, ?_, ?_⟩
  · intro he
    exact ⟨by simp [RGB48Image.SubImage, he], Intersect_empty _ _ he⟩
  · intro q hq
    cases he : (r.Intersect p.Rect).Empty with
    | true =>
      have hz := Intersect_empty _ _ he
      simp only [RGB48Image.SubImage, he, if_true, Option.some.injEq] at hq
      subst hq
      refine ⟨hz.symm, ?_⟩
      intro _ x y hin
      rw [hz] at hin
      simp [Point.In, ZR] at hin
      omega
    | false =>
      simp only [RGB48Image.SubImage, he, Bool.false_eq_true, if_false,
        Option.map_eq_some'] at hq
      obtain ⟨pix, hpix, rfl⟩ := hq
      refine ⟨rfl, ?_⟩
      intro hf x y hin
      unfold sliceFrom at hpix
      split at hpix
      · rename_i hi
        cases hpix
        obtain ⟨b1, b2, b3, b4⟩ := Intersect_nonempty _ _ he
        exact SubImage_reads p _ hf b1 b2 b3 b4 hi.1 x y hin
      · cases hpix
  · intro ha
    refine ⟨Allocated_OffsetsFit p ha, ?_⟩
    cases he : (r.Intersect p.Rect).Empty with
    | true => simp [RGB48Image.SubImage, he]
    | false =>
      obtain ⟨b1, b2, b3, b4⟩ := Intersect_nonempty _ _ he
      have hne : ¬ ((r.Intersect p.Rect).Min.X ≥ (r.Intersect p.Rect).Max.X
          ∨ (r.Intersect p.Rect).Min.Y ≥ (r.Intersect p.Rect).Max.Y) := by
        simpa [Rectangle.Empty] using he
      have hin : Point.In ⟨(r.Intersect p.Rect).Min.X, (r.Intersect p.Rect).Min.Y⟩ p.Rect
          = true := (In_iff _ _ _).mpr (by omega)
      obtain ⟨h0, h1⟩ := PixOffset_bounds p ha _ _ hin
      have hc : 0 ≤ p.PixOffset (r.Intersect p.Rect).Min.X (r.Intersect p.Rect).Min.Y
          ∧ (p.PixOffset (r.Intersect p.Rect).Min.X (r.Intersect p.Rect).Min.Y).toNat
            ≤ p.Pix.length := by omega
      simp [RGB48Image.SubImage, he, sliceFrom, hc]

/-- Witness for claim C13: a 2 by 2 image with the layout of `NewRGB48Image`
and a rectangle that overlaps it in one pixel. -/
theorem SubImage_reads_same_pixels_witness :
    RGB48Image.Allocated ⟨List.replicate 24 7, 12, ⟨⟨0, 0⟩, ⟨2, 2⟩⟩⟩
    ∧ ∃ q, RGB48Image.SubImage ⟨List.replicate 24 7, 12, ⟨⟨0, 0⟩, ⟨2, 2⟩⟩⟩
        ⟨⟨1, 1⟩, ⟨5, 5⟩⟩ = some q :=
  have ha : RGB48Image.Allocated ⟨List.replicate 24 7, 12, ⟨⟨0, 0⟩, ⟨2, 2⟩⟩⟩ :=
    ⟨⟨by decide, by decide, by decide, by decide⟩, by decide, by decide⟩
  ⟨ha, ((SubImage_reads_same_pixels _ _).2.2 ha).2⟩

/-- Claim C13 fails as stated for images that `NewRGB48Image` cannot give:
with an empty `Pix` under a non-empty `Rect`, `SubImage` panics on `Pix[i:]`;
with the stride -3, the sub-image of `(2,0)-(4,2)` panics in `At(2, 1)`
(offset -3) where the image itself returns a colour; and with the stride
`2^63 - 1` and `Rect` `(0,0)-(2,3)`, the offset of `(1, 2)` overflows to 1 in
the image, which returns, and to -2 in the sub-image of `(1,0)-(2,3)`, which
panics. -/
theorem SubImage_ill_formed_image_fails :
    RGB48Image.SubImage ⟨[], 0, ⟨⟨0, 0⟩, ⟨2, 1⟩⟩⟩ ⟨⟨1, 0⟩, ⟨2, 1⟩⟩ = none
    ∧ Point.In ⟨2, 1⟩
        (Rectangle.Intersect ⟨⟨2, 0⟩, ⟨4, 2⟩⟩ ⟨⟨0, 0⟩, ⟨4, 2⟩⟩) = true
    ∧ (RGB48Image.SubImage ⟨List.replicate 12 0, -3, ⟨⟨0, 0⟩, ⟨4, 2⟩⟩⟩
        ⟨⟨2, 0⟩, ⟨4, 2⟩⟩).map (fun q => q.At 2 1) = some none
    ∧ RGB48Image.At ⟨List.replicate 12 0, -3, ⟨⟨0, 0⟩, ⟨4, 2⟩⟩⟩ 2 1
        = some (0, 0, 0, 0xFFFF)
    ∧ Point.In ⟨1, 2⟩
        (Rectangle.Intersect ⟨⟨1, 0⟩, ⟨2, 3⟩⟩ ⟨⟨0, 0⟩, ⟨2, 3⟩⟩) = true
    ∧ (RGB48Image.SubImage ⟨List.replicate 12 0, 9223372036854775807, ⟨⟨0, 0⟩, ⟨2, 3⟩⟩⟩
        ⟨⟨1, 0⟩, ⟨2, 3⟩⟩).map (fun q => q.PixOffset 1 2) = some (-2)
    ∧ (RGB48Image.SubImage ⟨List.replicate 12 0, 9223372036854775807, ⟨⟨0, 0⟩, ⟨2, 3⟩⟩⟩
        ⟨⟨1, 0⟩, ⟨2, 3⟩⟩).map (fun q => q.At 1 2) = some none
    ∧ RGB48Image.PixOffset ⟨List.replicate 12 0, 9223372036854775807, ⟨⟨0, 0⟩, ⟨2, 3⟩⟩⟩ 1 2
        = 1
    ∧ RGB48Image.At ⟨List.replicate 12 0, 9223372036854775807, ⟨⟨0, 0⟩, ⟨2, 3⟩⟩⟩ 1 2
        = some (0, 0, 0, 0xFFFF) :=
  ⟨by decide, by decide, by decide, by decide, by decide, by decide, by decide, by decide,
    by decide⟩

/-- Claim C14 fails on the code: on `NewRGB48Image` of the 2 by 1 rectangle,
`PixOffset` puts the pixels `(0, 0)` and `(1, 0)` at the offsets 0 and 3, so
their 6-byte ranges overlap, and `SetRGB48(0, 0, [0xFFFF, 0xFFFF, 0xFFFF])`
changes `RGB48At(1, 0)` from `[0, 0, 0]` to `[0xFFFF, 0xFF00, 0]`. -/
theorem SetRGB48_overwrites_neighbour :
    (NewRGB48Image ⟨⟨0, 0⟩, ⟨2, 1⟩⟩).bind (fun p => p.RGB48At 1 0) = some (0, 0, 0)
    ∧ ((NewRGB48Image ⟨⟨0, 0⟩, ⟨2, 1⟩⟩).bind
          (fun p => p.SetRGB48 0 0 (0xFFFF, 0xFFFF, 0xFFFF))).bind (fun p => p.RGB48At 1 0)
        = some (0xFFFF, 0xFF00, 0)
    ∧ (NewRGB48Image ⟨⟨0, 0⟩, ⟨2, 1⟩⟩).map (fun p => (p.PixOffset 0 0, p.PixOffset 1 0))
        = some (0, 3) := by
  decide

/-- Claim C15, as amended: for every rectangle `r` whose size `6 * w * h` is at
most `maxAlloc` (so that the `int` product does not overflow and `make` accepts
it), every image `p` made by `NewRGB48Image(r)`, every point `(x, y)` of
`p.Rect` and every triple `c` of 16-bit values, `SetRGB48(x, y, c)` returns and
afterwards `RGB48At(x, y)` is `c` and `At(x, y)` is
`RGBA64{c[0], c[1], c[2], 0xFFFF}`. -/
theorem SetRGB48_then_read_back (r : Rectangle) (p : RGB48Image) (x y : Int) (c0 c1 c2 : Nat)
    (hsize : 6 * (r.Max.X - r.Min.X) * (r.Max.Y - r.Min.Y) ≤ maxAlloc)
    (hp : NewRGB48Image r = some p) (hin : Point.In ⟨x, y⟩ p.Rect = true)
    (h0 : c0 ≤ 0xFFFF) (h1 : c1 ≤ 0xFFFF) (h2 : c2 ≤ 0xFFFF) :
    ∃ p', p.SetRGB48 x y (c0, c1, c2) = some p'
      ∧ p'.RGB48At x y = some (c0, c1, c2) ∧ p'.At x y = some (c0, c1, c2, 0xFFFF) := by
  have hr : p.Rect = r := by
    unfold NewRGB48Image at hp
    rw [Option.map_eq_some'] at hp
    obtain ⟨pix, _, rfl⟩ := hp
    rfl
  have ha : r.Allocatable := Allocatable_of_point r hsize x y (hr ▸ hin)
  obtain ⟨p', e, _, _, e1, e2⟩ :=
    SetRGB48_read_back p (NewRGB48Image_spec ha hp).2.1 x y c0 c1 c2 hin h0 h1 h2
  exact ⟨p', e, e1, e2⟩

/-- Witness for claim C15: the pixel `(1, 0)` of the fresh 2 by 1 image. -/
theorem SetRGB48_then_read_back_witness :
    ∃ p', RGB48Image.SetRGB48 ⟨List.replicate 12 0, 12, ⟨⟨0, 0⟩, ⟨2, 1⟩⟩⟩ 1 0
        (0x1234, 0x5678, 0x9ABC) = some p'
      ∧ p'.RGB48At 1 0 = some (0x1234, 0x5678, 0x9ABC)
      ∧ p'.At 1 0 = some (0x1234, 0x5678, 0x9ABC, 0xFFFF) :=
  SetRGB48_then_read_back ⟨⟨0, 0⟩, ⟨2, 1⟩⟩ ⟨List.replicate 12 0, 12, ⟨⟨0, 0⟩, ⟨2, 1⟩⟩⟩ 1 0
    0x1234 0x5678 0x9ABC (by decide) (by decide) (by decide) (by decide) (by decide)
    (by decide)

/-- Claim C15 fails as stated when the size overflows `int`: for the rectangle
`(0,0)-(2^32,2^32)` the product `6 * w * h` wraps to 0, `NewRGB48Image` returns
an image with an empty `Pix`, and `SetRGB48(0, 0, c)` at the point `(0, 0)` of
its `Rect` panics. -/
theorem SetRGB48_on_overflowed_image_fails :
    (NewRGB48Image ⟨⟨0, 0⟩, ⟨4294967296, 4294967296⟩⟩).map (fun p => p.Pix) = some []
    ∧ Point.In ⟨0, 0⟩ ⟨⟨0, 0⟩, ⟨4294967296, 4294967296⟩⟩ = true
    ∧ (NewRGB48Image ⟨⟨0, 0⟩, ⟨4294967296, 4294967296⟩⟩).bind
        (fun p => p.SetRGB48 0 0 (1, 2, 3)) = none :=
  ⟨by decide, by decide, by decide⟩

/-- Claim C16: for a colour that is not a `Color`, with `RGBA()` results
`(r, g, b, a)` each at most `0xFFFF`, `colorModelConvert(4, uint16, c)` returns
a colour whose `RGBA()` is `(r, g, b, a)` again. -/
theorem convert_other_four_uint16_round_trip (r g b a : Nat) (hr : r ≤ 0xFFFF)
    (hg : g ≤ 0xFFFF) (hb : b ≤ 0xFFFF) (ha : a ≤ 0xFFFF) :
    ∃ z, colorModelConvert 4 reflect.Uint16 (.other r g b a) = some z
      ∧ z.RGBA = some (r, g, b, a) := by
  refine ⟨_, convert_other_4_u16 r g b a, ?_⟩
  simp only [Color.RGBA, PixSilce.Uint16s, RGBA64RGBA, toByte_shift_val _ hr,
    toByte_shift_val _ hg, toByte_shift_val _ hb, toByte_shift_val _ ha, toByte_low_val]
  simp
  omega

/-- Witness for claim C16: the colour with results `(0x1234, 0x5678, 0x9ABC,
0xFFFF)`. -/
theorem convert_other_four_uint16_round_trip_witness :
    ∃ z, colorModelConvert 4 reflect.Uint16 (.other 0x1234 0x5678 0x9ABC 0xFFFF) = some z
      ∧ z.RGBA = some (0x1234, 0x5678, 0x9ABC, 0xFFFF) :=
  convert_other_four_uint16_round_trip 0x1234 0x5678 0x9ABC 0xFFFF
    (by decide) (by decide) (by decide) (by decide)

/-- Claim C17: for a colour that is not a `Color`, with `RGBA()` results
`(r, g, b, a)` each at most `0xFFFF`, the `RGBA()` of
`colorModelConvert(4, uint8, c)` is `((v >> 8) * 0x101)` in every component,
that of `colorModelConvert(3, uint8, c)` has the same R, G, B and `A = 0xFFFF`,
and `(v >> 8) * 0x101` is within 255 of `v`. -/
theorem convert_other_uint8_expansion (r g b a : Nat) (hr : r ≤ 0xFFFF) (hg : g ≤ 0xFFFF)
    (hb : b ≤ 0xFFFF) (ha : a ≤ 0xFFFF) :
    (∃ z, colorModelConvert 4 reflect.Uint8 (.other r g b a) = some z
      ∧ z.RGBA = some ((r >>> 8) * 0x101, (g >>> 8) * 0x101, (b >>> 8) * 0x101,
          (a >>> 8) * 0x101))
    ∧ (∃ z, colorModelConvert 3 reflect.Uint8 (.other r g b a) = some z
      ∧ z.RGBA = some ((r >>> 8) * 0x101, (g >>> 8) * 0x101, (b >>> 8) * 0x101, 0xFFFF))
    ∧ (∀ v : Nat, v ≤ 0xFFFF → (v >>> 8) * 0x101 ≤ v + 255 ∧ v ≤ (v >>> 8) * 0x101 + 255) := by
  have e : ∀ v : Nat, v ≤ 0xFFFF → (toByte (v >>> 8)).val = v >>> 8 := by
    intro v hv
    rw [toByte_shift_val v hv, Nat.shiftRight_eq_div_pow]
  refine ⟨⟨_, convert_other_4_u8 r g b a, ?_⟩, ⟨_, convert_other_3_u8 r g b a, ?_⟩, ?_⟩
  · rw [RGBA_4_u8, e r hr, e g hg, e b hb, e a ha]
  · rw [RGBA_3_u8, e r hr, e g hg, e b hb]
  · intro v hv
    simp only [Nat.shiftRight_eq_div_pow]
    omega

/-- Witness for claim C17: the colour with results `(0x12FF, 0x5600, 0x9ABC,
0x8000)`. -/
theorem convert_other_uint8_expansion_witness :
    ∃ z, colorModelConvert 4 reflect.Uint8 (.other 0x12FF 0x5600 0x9ABC 0x8000) = some z
      ∧ z.RGBA = some ((0x12FF >>> 8) * 0x101, (0x5600 >>> 8) * 0x101, (0x9ABC >>> 8) * 0x101,
          (0x8000 >>> 8) * 0x101) :=
  (convert_other_uint8_expansion 0x12FF 0x5600 0x9ABC 0x8000
    (by decide) (by decide) (by decide) (by decide)).1

/-- Claim C18, as amended: for every rectangle `r` with `Min.X <= Max.X`,
`Min.Y <= Max.Y` and a size `6 * w * h` of at most `maxAlloc` (so that the
`int` product does not overflow and `make` accepts it), `NewRGB48Image(r)`
returns an image with `Rect == r`, `Stride == 6 * r.Dx()` and
`6 * r.Dx() * r.Dy()` zero bytes, these `int` products being the exact
`6 * w * h` (and `6 * w` wherever the rectangle has a point), and for every
point of `r` the offset satisfies `0 <= PixOffset(x, y)` and
`PixOffset(x, y) + 5 < len(Pix)`, so that `At`, `RGB48At`, `SetRGB48` and `Set`
(for a colour whose own `RGBA()` returns) return without indexing outside
`Pix`. -/
theorem NewRGB48Image_layout (r : Rectangle) (hx : r.Min.X ≤ r.Max.X)
    (hy : r.Min.Y ≤ r.Max.Y)
    (hsize : 6 * (r.Max.X - r.Min.X) * (r.Max.Y - r.Min.Y) ≤ maxAlloc) :
    ∃ p, NewRGB48Image r = some p ∧ p.Rect = r ∧ p.Stride = mulInt 6 r.Dx
      ∧ (p.Pix.length : Int) = mulInt (mulInt 6 r.Dx) r.Dy
      ∧ (p.Pix.length : Int) = 6 * (r.Max.X - r.Min.X) * (r.Max.Y - r.Min.Y)
      ∧ (∀ b ∈ p.Pix, b = 0)
      ∧ ∀ x y, Point.In ⟨x, y⟩ r = true →
          p.Stride = 6 * (r.Max.X - r.Min.X)
          ∧ 0 ≤ p.PixOffset x y ∧ p.PixOffset x y + 5 < p.Pix.length
          ∧ (∃ v, p.At x y = some v) ∧ (∃ v, p.RGB48At x y = some v)
          ∧ (∀ c0 c1 c2, ∃ p', p.SetRGB48 x y (c0, c1, c2) = some p')
          ∧ (∀ c v, ColorValue.RGBA c = some v → ∃ p', p.Set x y c = some p') := by
  obtain ⟨e, hnew⟩ := NewRGB48Image_size r hx hy hsize
  have h0 : 0 ≤ 6 * (r.Max.X - r.Min.X) * (r.Max.Y - r.Min.Y) :=
    Int.mul_nonneg (by omega) (by omega)
  have hlen : ((List.replicate (6 * (r.Max.X - r.Min.X) * (r.Max.Y - r.Min.Y)).toNat
      (0 : Byte)).length : Int) = 6 * (r.Max.X - r.Min.X) * (r.Max.Y - r.Min.Y) := by
    simp only [List.length_replicate]
    omega
  refine ⟨_, hnew, rfl, rfl, ?_, hlen, ?_, ?_⟩
  · rw [e]
    exact hlen
  · intro b hb
    exact (List.mem_replicate.mp hb).2
  · intro x y hin
    have ha := Allocatable_of_point r hsize x y hin
    obtain ⟨_, h2, _⟩ := NewRGB48Image_spec ha hnew
    obtain ⟨b0, b1⟩ := PixOffset_bounds _ h2 x y hin
    obtain ⟨ra, rb⟩ := readers_some _ h2 x y hin
    have h63 := Allocated_length_lt _ h2
    refine ⟨(NewRGB48Image_eq r ha).2.1, b0, b1, ra, rb, ?_, ?_⟩
    · intro c0 c1 c2
      obtain ⟨pix', hs, _⟩ := store48_spec _ _ c0 c1 c2 b0 b1 h63
      exact ⟨_, SetRGB48_eq _ x y (c0, c1, c2) pix' hin hs⟩
    · intro c v hv
      obtain ⟨cr, cg, cb, ca⟩ := v
      obtain ⟨pix', hs, _⟩ :=
        store48_spec _ _ (cr % 2 ^ 16) (cg % 2 ^ 16) (cb % 2 ^ 16) b0 b1 h63
      exact ⟨_, Set_eq _ x y c cr cg cb ca pix' hin hv hs⟩

/-- Witness for claim C18: the rectangle `(1, 2)-(4, 4)`. -/
theorem NewRGB48Image_layout_witness :
    ∃ p, NewRGB48Image ⟨⟨1, 2⟩, ⟨4, 4⟩⟩ = some p ∧ p.Rect = ⟨⟨1, 2⟩, ⟨4, 4⟩⟩
      ∧ p.Stride = mulInt 6 (Rectangle.Dx ⟨⟨1, 2⟩, ⟨4, 4⟩⟩)
      ∧ (p.Pix.length : Int)
          = mulInt (mulInt 6 (Rectangle.Dx ⟨⟨1, 2⟩, ⟨4, 4⟩⟩)) (Rectangle.Dy ⟨⟨1, 2⟩, ⟨4, 4⟩⟩)
      ∧ (p.Pix.length : Int) = 6 * (4 - 1) * (4 - 2)
      ∧ (∀ b ∈ p.Pix, b = 0)
      ∧ ∀ x y, Point.In ⟨x, y⟩ ⟨⟨1, 2⟩, ⟨4, 4⟩⟩ = true →
          p.Stride = 6 * (4 - 1)
          ∧ 0 ≤ p.PixOffset x y ∧ p.PixOffset x y + 5 < p.Pix.length
          ∧ (∃ v, p.At x y = some v) ∧ (∃ v, p.RGB48At x y = some v)
          ∧ (∀ c0 c1 c2, ∃ p', p.SetRGB48 x y (c0, c1, c2) = some p')
          ∧ (∀ c v, ColorValue.RGBA c = some v → ∃ p', p.Set x y c = some p') :=
  NewRGB48Image_layout ⟨⟨1, 2⟩, ⟨4, 4⟩⟩ (by decide) (by decide) (by decide)

/-- Claim C18 fails as stated when the size overflows `int` or exceeds what
`make` allocates: for the rectangle `(0,0)-(2^32,2^32)` the product
`6 * w * h` wraps to 0, the image has an empty `Pix`, the offset of the point
`(0, 0)` is 0 so `PixOffset + 5 < len(Pix)` is false, and `At(0, 0)` and
`RGB48At(0, 0)` panic; for the bounds `(-1e9,-1e9)-(1e9,1e9)` of
`image.Uniform` the size is above the limit and `NewRGB48Image` itself
panics. -/
theorem NewRGB48Image_overflowed_layout_fails :
    (NewRGB48Image ⟨⟨0, 0⟩, ⟨4294967296, 4294967296⟩⟩).map
        (fun p => (p.Pix, p.PixOffset 0 0)) = some ([], 0)
    ∧ Point.In ⟨0, 0⟩ ⟨⟨0, 0⟩, ⟨4294967296, 4294967296⟩⟩ = true
    ∧ (NewRGB48Image ⟨⟨0, 0⟩, ⟨4294967296, 4294967296⟩⟩).bind (fun p => p.At 0 0) = none
    ∧ (NewRGB48Image ⟨⟨0, 0⟩, ⟨4294967296, 4294967296⟩⟩).bind (fun p => p.RGB48At 0 0) = none
    ∧ NewRGB48Image ⟨⟨-1000000000, -1000000000⟩, ⟨1000000000, 1000000000⟩⟩ = none :=
  ⟨by decide, by decide, by decide, by decide, by decide⟩

/-- Claim C19: for every `RGB48Image` and every point outside its `Rect`,
`At` returns `RGBA64{0, 0, 0, 0}`, `RGB48At` returns `[0, 0, 0]`, and `Set` and
`SetRGB48` return leaving `Pix`, `Stride` and `Rect` unchanged, for every
colour argument. -/
theorem outside_rect_is_inert (p : RGB48Image) (x y : Int)
    (hout : Point.In ⟨x, y⟩ p.Rect = false) :
    p.At x y = some (0, 0, 0, 0) ∧ p.RGB48At x y = some (0, 0, 0)
    ∧ (∀ c, p.Set x y c = some p) ∧ (∀ c, p.SetRGB48 x y c = some p) := by
  refine ⟨?_, ?_, ?_, ?_⟩
  · simp [RGB48Image.At, hout]
  · simp [RGB48Image.RGB48At, hout]
  · intro c
    simp [RGB48Image.Set, hout]
  · intro c
    simp [RGB48Image.SetRGB48, hout]

/-- Witness for claim C19: the point `(2, 0)` next to the 2 by 1 image. -/
theorem outside_rect_is_inert_witness :
    RGB48Image.At ⟨List.replicate 12 9, 12, ⟨⟨0, 0⟩, ⟨2, 1⟩⟩⟩ 2 0 = some (0, 0, 0, 0)
    ∧ RGB48Image.RGB48At ⟨List.replicate 12 9, 12, ⟨⟨0, 0⟩, ⟨2, 1⟩⟩⟩ 2 0 = some (0, 0, 0)
    ∧ (∀ c, RGB48Image.Set ⟨List.replicate 12 9, 12, ⟨⟨0, 0⟩, ⟨2, 1⟩⟩⟩ 2 0 c
        = some ⟨List.replicate 12 9, 12, ⟨⟨0, 0⟩, ⟨2, 1⟩⟩⟩)
    ∧ (∀ c, RGB48Image.SetRGB48 ⟨List.replicate 12 9, 12, ⟨⟨0, 0⟩, ⟨2, 1⟩⟩⟩ 2 0 c
        = some ⟨List.replicate 12 9, 12, ⟨⟨0, 0⟩, ⟨2, 1⟩⟩⟩) :=
  outside_rect_is_inert ⟨List.replicate 12 9, 12, ⟨⟨0, 0⟩, ⟨2, 1⟩⟩⟩ 2 0 (by decide)

end ImageColor
